import Mathlib

/-!
Shallow embedding of the CHIP-8 emulator core (`Chip8CPU` in `chatgptpj64.py`).

Modelling conventions:
* Python lists become `List Nat` (or `List (List Nat)` for the display).
* Python list subscription `l[i]` / assignment `l[i] = v` are modelled by
  `pyGet` / `pySet`, which reproduce Python semantics exactly: negative
  indices address from the end, and an out-of-range index raises
  `IndexError`, modelled as `none`.  A `none` result of an operation
  therefore means "this Python code raises an uncaught exception".
* Python slice assignment `l[i:j] = vs` (used by the FX33 instruction)
  never raises for `0 ≤ i ≤ j`; it clamps the bounds to the list length
  and can change the length of the list (`pySetSlice`).
* Python integers are unbounded, so machine words are plain `Nat`
  (the stack pointer is `Int`, because `00EE` decrements it below zero
  on stack underflow).  `(a - b) & 0xFF` on possibly-negative values is
  modelled on `Int` via `% 256`, which agrees with Python's `&`.
* `random.randint(0, 255)` in the CXNN instruction is modelled by an
  explicit parameter `rnd` passed to `execute` and `cycle`.
-/

/-- Python list read `l[i]`: negative indices count from the end,
out-of-range reads raise `IndexError` (modelled as `none`). -/
def pyGet {α : Type} (l : List α) (i : Int) : Option α :=
  if 0 ≤ i then l[i.toNat]?
  else if 0 ≤ i + l.length then l[(i + l.length).toNat]? else none

/-- Python list element assignment `l[i] = v`. -/
def pySet {α : Type} (l : List α) (i : Int) (v : α) : Option (List α) :=
  if 0 ≤ i then
    if i.toNat < l.length then some (l.set i.toNat v) else none
  else if 0 ≤ i + l.length then some (l.set (i + l.length).toNat v) else none

/-- Python slice assignment `l[i:j] = vs` for `0 ≤ i ≤ j`: bounds are
clamped to the list length (`take`/`drop` clamp in the same way), and the
slice is replaced by `vs`, possibly changing the length of the list. -/
def pySetSlice {α : Type} (l : List α) (i j : Nat) (vs : List α) : List α :=
  l.take i ++ vs ++ l.drop j

/-- Sequential element-wise copy `for i, b in enumerate(data): mem[base + i] = b`
(used with all indices in range, where `List.set` agrees with Python). -/
def writeBytes : List Nat → Nat → List Nat → List Nat
  | mem, _, [] => mem
  | mem, base, b :: rest => writeBytes (mem.set base b) (base + 1) rest

/-- Python `(a - b) & 0xFF` where `a - b` may be negative: Python's `&`
on a negative int uses two's complement, which equals `% 256` on `Int`. -/
def subMask (a b : Nat) : Nat := (((a : Int) - (b : Int)) % 256).toNat

/-- The built-in `FONTSET` table. -/
def FONTSET : List Nat :=
  [0xF0, 0x90, 0x90, 0x90, 0xF0,
   0x20, 0x60, 0x20, 0x20, 0x70,
   0xF0, 0x10, 0xF0, 0x80, 0xF0,
   0xF0, 0x10, 0xF0, 0x10, 0xF0,
   0x90, 0x90, 0xF0, 0x10, 0x10,
   0xF0, 0x80, 0xF0, 0x10, 0xF0,
   0xF0, 0x80, 0xF0, 0x90, 0xF0,
   0xF0, 0x10, 0x20, 0x40, 0x40,
   0xF0, 0x90, 0xF0, 0x90, 0xF0,
   0xF0, 0x90, 0xF0, 0x10, 0xF0,
   0xF0, 0x90, 0xF0, 0x90, 0x90,
   0xE0, 0x90, 0xE0, 0x90, 0xE0,
   0xF0, 0x80, 0x80, 0x80, 0xF0,
   0xE0, 0x90, 0x90, 0x90, 0xE0,
   0xF0, 0x80, 0xF0, 0x80, 0xF0,
   0xF0, 0x80, 0xF0, 0x80, 0x80]

/-- The machine state of `Chip8CPU`. -/
structure Chip8CPU where
  memory : List Nat
  V : List Nat
  I : Nat
  PC : Nat
  SP : Int
  stack : List Nat
  delay_timer : Nat
  sound_timer : Nat
  display : List (List Nat)
  keys : List Nat
  draw_flag : Bool
  sound_flag : Bool
  waiting_for_key : Bool
  key_register : Nat
  shift_quirk : Bool
  increment_i : Bool
  max_pc : Nat
  deriving Repr

/-- `Chip8CPU.reset`. -/
def resetState : Chip8CPU where
  memory := writeBytes (List.replicate 4096 0) 0 FONTSET
  V := List.replicate 16 0
  I := 0
  PC := 0x200
  SP := 0
  stack := List.replicate 16 0
  delay_timer := 0
  sound_timer := 0
  display := List.replicate 32 (List.replicate 64 0)
  keys := List.replicate 16 0
  draw_flag := false
  sound_flag := false
  waiting_for_key := false
  key_register := 0
  shift_quirk := true
  increment_i := true
  max_pc := 4094

/-- `Chip8CPU.load_rom`: returns the Python `bool` result together with the
state after the call (Python mutates `self`; we return the new state). -/
def load_rom (cpu : Chip8CPU) (data : List Nat) : Bool × Chip8CPU :=
  if 3584 < data.length then (false, cpu)
  else (true, { resetState with memory := writeBytes resetState.memory 0x200 data })

/-- The 8XY* arithmetic/logic group of `Chip8CPU.execute` (the trailing
`PC += 2` of the group is applied by the caller, as in the source). -/
def execute8 (cpu : Chip8CPU) (x y n : Nat) : Option Chip8CPU :=
  if n = 0x6 then
    (if cpu.shift_quirk then pyGet cpu.V (y : Nat) else pyGet cpu.V (x : Nat)).bind fun val => do
      let v1 ← pySet cpu.V (15 : Nat) (val &&& 1)
      let v2 ← pySet v1 (x : Nat) (val >>> 1)
      some { cpu with V := v2 }
  else if n = 0xE then
    (if cpu.shift_quirk then pyGet cpu.V (y : Nat) else pyGet cpu.V (x : Nat)).bind fun val => do
      let v1 ← pySet cpu.V (15 : Nat) ((val >>> 7) &&& 1)
      let v2 ← pySet v1 (x : Nat) ((val <<< 1) &&& 0xFF)
      some { cpu with V := v2 }
  else if n = 0x4 then do
    let vx ← pyGet cpu.V (x : Nat)
    let vy ← pyGet cpu.V (y : Nat)
    let s := vx + vy
    let v1 ← pySet cpu.V (x : Nat) (s &&& 0xFF)
    let v2 ← pySet v1 (15 : Nat) (if 255 < s then 1 else 0)
    some { cpu with V := v2 }
  else if n = 0x5 then do
    let vx ← pyGet cpu.V (x : Nat)
    let vy ← pyGet cpu.V (y : Nat)
    let v1 ← pySet cpu.V (15 : Nat) (if vy ≤ vx then 1 else 0)
    let vx2 ← pyGet v1 (x : Nat)
    let vy2 ← pyGet v1 (y : Nat)
    let v2 ← pySet v1 (x : Nat) (subMask vx2 vy2)
    some { cpu with V := v2 }
  else if n = 0x7 then do
    let vx ← pyGet cpu.V (x : Nat)
    let vy ← pyGet cpu.V (y : Nat)
    let v1 ← pySet cpu.V (15 : Nat) (if vx ≤ vy then 1 else 0)
    let vx2 ← pyGet v1 (x : Nat)
    let vy2 ← pyGet v1 (y : Nat)
    let v2 ← pySet v1 (x : Nat) (subMask vy2 vx2)
    some { cpu with V := v2 }
  else if n = 0x0 then do
    let vy ← pyGet cpu.V (y : Nat)
    let v1 ← pySet cpu.V (x : Nat) vy
    some { cpu with V := v1 }
  else if n = 0x1 then do
    let vx ← pyGet cpu.V (x : Nat)
    let vy ← pyGet cpu.V (y : Nat)
    let v1 ← pySet cpu.V (x : Nat) (vx ||| vy)
    let v2 ← pySet v1 (15 : Nat) 0
    some { cpu with V := v2 }
  else if n = 0x2 then do
    let vx ← pyGet cpu.V (x : Nat)
    let vy ← pyGet cpu.V (y : Nat)
    let v1 ← pySet cpu.V (x : Nat) (vx &&& vy)
    let v2 ← pySet v1 (15 : Nat) 0
    some { cpu with V := v2 }
  else if n = 0x3 then do
    let vx ← pyGet cpu.V (x : Nat)
    let vy ← pyGet cpu.V (y : Nat)
    let v1 ← pySet cpu.V (x : Nat) (vx ^^^ vy)
    let v2 ← pySet v1 (15 : Nat) 0
    some { cpu with V := v2 }
  else some cpu

/-- One pixel of the DXYN blit: the body of `if sprite & (0x80 >> col):`.
`V[x]` and `V[y]` are re-read for every pixel, exactly as in the source. -/
def drawPixel (cpu : Chip8CPU) (x y row col : Nat) : Option Chip8CPU := do
  let vx ← pyGet cpu.V (x : Nat)
  let vy ← pyGet cpu.V (y : Nat)
  let px := (vx + col) % 64
  let py := (vy + row) % 32
  let rowList ← pyGet cpu.display (py : Nat)
  let pix ← pyGet rowList (px : Nat)
  (if pix ≠ 0 then
      (pySet cpu.V (15 : Nat) 1).bind fun v => some { cpu with V := v }
    else some cpu).bind fun cpu1 =>
    (pySet rowList (px : Nat) (pix ^^^ 1)).bind fun newRow =>
      (pySet cpu1.display (py : Nat) newRow).bind fun disp =>
        some { cpu1 with display := disp }

/-- One column iteration of the DXYN inner loop. -/
def drawStep (x y row sprite : Nat) (cpu : Chip8CPU) (col : Nat) : Option Chip8CPU :=
  if sprite &&& (0x80 >>> col) ≠ 0 then drawPixel cpu x y row col else some cpu

/-- One row iteration of the DXYN outer loop: `sprite = self.memory[self.I + row]`
then the loop over the 8 columns. -/
def drawRowStep (x y : Nat) (cpu : Chip8CPU) (row : Nat) : Option Chip8CPU := do
  let sprite ← pyGet cpu.memory ((cpu.I + row : Nat) : Int)
  List.foldlM (drawStep x y row sprite) cpu (List.range 8)

/-- One iteration of the FX55 register dump loop: `self.memory[self.I+i] = self.V[i]`. -/
def dumpStep (cpu : Chip8CPU) (i : Nat) : Option Chip8CPU := do
  let vi ← pyGet cpu.V (i : Nat)
  let mem ← pySet cpu.memory ((cpu.I + i : Nat) : Int) vi
  some { cpu with memory := mem }

/-- One iteration of the FX65 register load loop: `self.V[i] = self.memory[self.I+i]`. -/
def loadStep (cpu : Chip8CPU) (i : Nat) : Option Chip8CPU := do
  let mi ← pyGet cpu.memory ((cpu.I + i : Nat) : Int)
  let v ← pySet cpu.V (i : Nat) mi
  some { cpu with V := v }

/-- The FX** group of `Chip8CPU.execute` (the trailing `PC += 2` of the
group is applied by the caller, as in the source). -/
def executeF (cpu : Chip8CPU) (x nn : Nat) : Option Chip8CPU :=
  if nn = 0x07 then do
    let v ← pySet cpu.V (x : Nat) cpu.delay_timer
    some { cpu with V := v }
  else if nn = 0x0A then
    some { cpu with waiting_for_key := true, key_register := x }
  else if nn = 0x15 then do
    let vx ← pyGet cpu.V (x : Nat)
    some { cpu with delay_timer := vx }
  else if nn = 0x18 then do
    let vx ← pyGet cpu.V (x : Nat)
    some { cpu with sound_timer := vx }
  else if nn = 0x1E then do
    let vx ← pyGet cpu.V (x : Nat)
    some { cpu with I := cpu.I + vx }
  else if nn = 0x29 then do
    let vx ← pyGet cpu.V (x : Nat)
    some { cpu with I := (vx &&& 0xF) * 5 }
  else if nn = 0x33 then do
    let vx ← pyGet cpu.V (x : Nat)
    let mem := pySetSlice cpu.memory cpu.I (cpu.I + 3) [vx / 100, (vx / 10) % 10, vx % 10]
    some { cpu with memory := mem }
  else if nn = 0x55 then do
    let cpu1 ← List.foldlM dumpStep cpu (List.range (x + 1))
    some (if cpu1.increment_i then { cpu1 with I := cpu1.I + x + 1 } else cpu1)
  else if nn = 0x65 then do
    let cpu1 ← List.foldlM loadStep cpu (List.range (x + 1))
    some (if cpu1.increment_i then { cpu1 with I := cpu1.I + x + 1 } else cpu1)
  else some cpu

/-- `Chip8CPU.execute`.  `rnd` models the value returned by
`random.randint(0, 255)` in the CXNN branch; `none` models an uncaught
`IndexError` from a Python list access. -/
def execute (cpu : Chip8CPU) (opcode rnd : Nat) : Option Chip8CPU :=
  let nnn := opcode &&& 0x0FFF
  let nn := opcode &&& 0x00FF
  let n := opcode &&& 0x000F
  let x := (opcode >>> 8) &&& 0xF
  let y := (opcode >>> 4) &&& 0xF
  let op := opcode >>> 12
  if opcode = 0x00E0 then
    some { cpu with display := List.replicate 32 (List.replicate 64 0),
                    draw_flag := true, PC := cpu.PC + 2 }
  else if opcode = 0x00EE then do
    let ret ← pyGet cpu.stack (cpu.SP - 1)
    some { cpu with SP := cpu.SP - 1, PC := ret + 2 }
  else if op = 0x1 then
    some { cpu with PC := nnn }
  else if op = 0x2 then do
    let stk ← pySet cpu.stack cpu.SP cpu.PC
    some { cpu with stack := stk, SP := cpu.SP + 1, PC := nnn }
  else if op = 0x3 then do
    let vx ← pyGet cpu.V (x : Nat)
    some { cpu with PC := cpu.PC + (if vx = nn then 4 else 2) }
  else if op = 0x4 then do
    let vx ← pyGet cpu.V (x : Nat)
    some { cpu with PC := cpu.PC + (if vx ≠ nn then 4 else 2) }
  else if op = 0x5 ∧ n = 0 then do
    let vx ← pyGet cpu.V (x : Nat)
    let vy ← pyGet cpu.V (y : Nat)
    some { cpu with PC := cpu.PC + (if vx = vy then 4 else 2) }
  else if op = 0x6 then do
    let v ← pySet cpu.V (x : Nat) nn
    some { cpu with V := v, PC := cpu.PC + 2 }
  else if op = 0x7 then do
    let vx ← pyGet cpu.V (x : Nat)
    let v ← pySet cpu.V (x : Nat) ((vx + nn) &&& 0xFF)
    some { cpu with V := v, PC := cpu.PC + 2 }
  else if op = 0x8 then do
    let cpu1 ← execute8 cpu x y n
    some { cpu1 with PC := cpu1.PC + 2 }
  else if op = 0x9 ∧ n = 0 then do
    let vx ← pyGet cpu.V (x : Nat)
    let vy ← pyGet cpu.V (y : Nat)
    some { cpu with PC := cpu.PC + (if vx ≠ vy then 4 else 2) }
  else if op = 0xA then
    some { cpu with I := nnn, PC := cpu.PC + 2 }
  else if op = 0xB then do
    let v0 ← pyGet cpu.V (0 : Nat)
    some { cpu with PC := nnn + v0 }
  else if op = 0xC then do
    let v ← pySet cpu.V (x : Nat) (rnd &&& nn)
    some { cpu with V := v, PC := cpu.PC + 2 }
  else if op = 0xD then do
    let v ← pySet cpu.V (15 : Nat) 0
    let cpu1 ← List.foldlM (drawRowStep x y) { cpu with V := v } (List.range n)
    some { cpu1 with draw_flag := true, PC := cpu1.PC + 2 }
  else if op = 0xE then
    if nn = 0x9E then do
      let vx ← pyGet cpu.V (x : Nat)
      let k ← pyGet cpu.keys (vx : Nat)
      some { cpu with PC := cpu.PC + (if k ≠ 0 then 4 else 2) }
    else if nn = 0xA1 then do
      let vx ← pyGet cpu.V (x : Nat)
      let k ← pyGet cpu.keys (vx : Nat)
      some { cpu with PC := cpu.PC + (if k = 0 then 4 else 2) }
    else some cpu
  else if op = 0xF then do
    let cpu1 ← executeF cpu x nn
    some { cpu1 with PC := cpu1.PC + 2 }
  else some cpu

/-- `Chip8CPU.cycle`. -/
def cycle (cpu : Chip8CPU) (rnd : Nat) : Option Chip8CPU :=
  if cpu.waiting_for_key then some cpu
  else if cpu.max_pc ≤ cpu.PC then some cpu
  else do
    let hi ← pyGet cpu.memory (cpu.PC : Nat)
    let lo ← pyGet cpu.memory ((cpu.PC + 1 : Nat) : Int)
    execute cpu ((hi <<< 8) ||| lo) rnd

/-- Iterated `cycle`, consuming one random byte per step. -/
def runCycles (cpu : Chip8CPU) (rnds : List Nat) : Option Chip8CPU :=
  List.foldlM cycle cpu rnds

/-- `Chip8CPU.update_timers`. -/
def update_timers (cpu : Chip8CPU) : Chip8CPU :=
  let cpu1 := if 0 < cpu.delay_timer
    then { cpu with delay_timer := cpu.delay_timer - 1 } else cpu
  if 0 < cpu1.sound_timer then
    { cpu1 with sound_timer := cpu1.sound_timer - 1, sound_flag := true }
  else
    { cpu1 with sound_flag := false }

/-- `Chip8CPU.key_press`. -/
def key_press (cpu : Chip8CPU) (k : Nat) : Option Chip8CPU := do
  let ks ← pySet cpu.keys (k : Nat) 1
  let cpu1 := { cpu with keys := ks }
  if cpu1.waiting_for_key then do
    let v ← pySet cpu1.V (cpu1.key_register : Nat) k
    some { cpu1 with V := v, waiting_for_key := false }
  else some cpu1

/-- `Chip8CPU.key_release`. -/
def key_release (cpu : Chip8CPU) (k : Nat) : Option Chip8CPU := do
  let ks ← pySet cpu.keys (k : Nat) 0
  some { cpu with keys := ks }

/-! ## Basic lemmas about the Python list primitives -/

@[simp]
theorem pyGet_coe {α : Type} (l : List α) (i : Nat) : pyGet l (i : Int) = l[i]? := by
  simp [pyGet]

theorem pySet_coe_lt {α : Type} (l : List α) (i : Nat) (v : α) (h : i < l.length) :
    pySet l (i : Int) v = some (l.set i v) := by
  simp [pySet, h]

theorem pySet_coe_ge {α : Type} (l : List α) (i : Nat) (v : α) (h : l.length ≤ i) :
    pySet l (i : Int) v = none := by
  simp [pySet]
  omega

theorem pyGet_eq_of_nonneg {α : Type} (l : List α) (i : Int) (h : 0 ≤ i) :
    pyGet l i = l[i.toNat]? := by
  simp [pyGet, h]

theorem pySet_eq_of_nonneg {α : Type} (l : List α) (i : Int) (v : α) (h0 : 0 ≤ i)
    (h : i.toNat < l.length) : pySet l i v = some (l.set i.toNat v) := by
  simp [pySet, h0, h]

theorem pyGet_mem {α : Type} {l : List α} {i : Int} {v : α} (h : pyGet l i = some v) :
    v ∈ l := by
  unfold pyGet at h
  split at h
  · exact List.getElem?_mem h
  · split at h
    · exact List.getElem?_mem h
    · exact absurd h (by simp)

theorem pySet_mem {α : Type} {l l' : List α} {i : Int} {v : α} (h : pySet l i v = some l')
    {a : α} (ha : a ∈ l') : a ∈ l ∨ a = v := by
  unfold pySet at h
  split at h
  · split at h
    · cases h; exact List.mem_or_eq_of_mem_set ha
    · cases h
  · split at h
    · cases h; exact List.mem_or_eq_of_mem_set ha
    · cases h

theorem pySet_length {α : Type} {l l' : List α} {i : Int} {v : α}
    (h : pySet l i v = some l') : l'.length = l.length := by
  unfold pySet at h
  split at h
  · split at h
    · cases h; simp
    · cases h
  · split at h
    · cases h; simp
    · cases h

/-! ## Lemmas about `writeBytes` -/

theorem writeBytes_length (data : List Nat) : ∀ (mem : List Nat) (base : Nat),
    (writeBytes mem base data).length = mem.length := by
  induction data with
  | nil => intro mem base; rfl
  | cons b rest ih =>
    intro mem base
    simp [writeBytes, ih]

theorem writeBytes_getElem?_lt (data : List Nat) : ∀ (mem : List Nat) (base a : Nat),
    a < base → (writeBytes mem base data)[a]? = mem[a]? := by
  induction data with
  | nil => intro mem base a _; rfl
  | cons b rest ih =>
    intro mem base a h
    rw [writeBytes, ih _ _ _ (by omega), List.getElem?_set_ne (by omega)]

theorem writeBytes_getElem?_ge (data : List Nat) : ∀ (mem : List Nat) (base a : Nat),
    base + data.length ≤ a → (writeBytes mem base data)[a]? = mem[a]? := by
  induction data with
  | nil => intro mem base a _; rfl
  | cons b rest ih =>
    intro mem base a h
    simp only [List.length_cons] at h
    rw [writeBytes, ih _ _ _ (by omega), List.getElem?_set_ne (by omega)]

theorem writeBytes_getElem?_in (data : List Nat) : ∀ (mem : List Nat) (base a : Nat),
    base ≤ a → a < base + data.length → base + data.length ≤ mem.length →
    (writeBytes mem base data)[a]? = data[a - base]? := by
  induction data with
  | nil => intro mem base a h1 h2 _; simp at h2; omega
  | cons b rest ih =>
    intro mem base a h1 h2 h3
    simp only [List.length_cons] at h2 h3
    rw [writeBytes]
    rcases Nat.eq_or_lt_of_le h1 with rfl | hlt
    · rw [writeBytes_getElem?_lt _ _ _ _ (by omega), List.getElem?_set_self (by omega)]
      simp
    · rw [ih _ _ _ (by omega) (by omega) (by simp; omega)]
      have : a - base = (a - (base + 1)) + 1 := by omega
      rw [this]
      simp

/-! ## Facts about the reset state -/

theorem mem_writeBytes {a : Nat} (data : List Nat) : ∀ (mem : List Nat) (base : Nat),
    a ∈ writeBytes mem base data → a ∈ mem ∨ a ∈ data := by
  induction data with
  | nil => intro mem base h; exact Or.inl h
  | cons b rest ih =>
    intro mem base h
    rcases ih _ _ h with h' | h'
    · rcases List.mem_or_eq_of_mem_set h' with h'' | h''
      · exact Or.inl h''
      · exact Or.inr (by simp [h''])
    · exact Or.inr (by simp [h'])

theorem resetState_memory_length : resetState.memory.length = 4096 := by
  show (writeBytes (List.replicate 4096 0) 0 FONTSET).length = 4096
  rw [writeBytes_length, List.length_replicate]

theorem fontset_lt : ∀ b ∈ FONTSET, b < 256 := by decide

theorem resetState_memory_lt : ∀ b ∈ resetState.memory, b < 256 := by
  intro b hb
  rcases mem_writeBytes _ _ _ hb with h | h
  · rw [List.eq_of_mem_replicate h]; omega
  · exact fontset_lt b h

/-! ## Dispatch lemmas: selecting one branch of `execute` from the opcode -/

theorem execute_ne_clear {opcode v : Nat} (h : opcode >>> 12 = v) (hv : v ≠ 0) :
    opcode ≠ 0x00E0 ∧ opcode ≠ 0x00EE := by
  constructor <;> rintro rfl <;> simp at h <;> exact hv h.symm

theorem execute_dispatch8 (cpu : Chip8CPU) (opcode rnd : Nat) (h : opcode >>> 12 = 8) :
    execute cpu opcode rnd =
      (execute8 cpu ((opcode >>> 8) &&& 0xF) ((opcode >>> 4) &&& 0xF) (opcode &&& 0xF)).bind
        (fun c => some { c with PC := c.PC + 2 }) := by
  obtain ⟨h1, h2⟩ := execute_ne_clear h (by omega)
  simp [execute, h, h1, h2]

theorem execute_dispatchD (cpu : Chip8CPU) (opcode rnd : Nat) (h : opcode >>> 12 = 0xD) :
    execute cpu opcode rnd =
      (pySet cpu.V ((15 : Nat) : Int) 0).bind (fun v =>
        (List.foldlM (drawRowStep ((opcode >>> 8) &&& 0xF) ((opcode >>> 4) &&& 0xF))
            { cpu with V := v } (List.range (opcode &&& 0xF))).bind (fun c =>
          some { c with draw_flag := true, PC := c.PC + 2 })) := by
  obtain ⟨h1, h2⟩ := execute_ne_clear h (by omega)
  simp [execute, h, h1, h2]

theorem execute_dispatchF (cpu : Chip8CPU) (opcode rnd : Nat) (h : opcode >>> 12 = 0xF) :
    execute cpu opcode rnd =
      (executeF cpu ((opcode >>> 8) &&& 0xF) (opcode &&& 0xFF)).bind
        (fun c => some { c with PC := c.PC + 2 }) := by
  obtain ⟨h1, h2⟩ := execute_ne_clear h (by omega)
  simp [execute, h, h1, h2]

/-! ## Claim C2: timer tick -/

theorem update_timers_delay (cpu : Chip8CPU) :
    (update_timers cpu).delay_timer = cpu.delay_timer - 1 := by
  unfold update_timers
  by_cases h : 0 < cpu.delay_timer <;> simp [h] <;> split <;> simp <;> omega

theorem update_timers_iterate (k : Nat) :
    ∀ cpu : Chip8CPU, (update_timers^[k] cpu).delay_timer = cpu.delay_timer - k := by
  induction k with
  | zero => intro cpu; simp
  | succ k ih =>
    intro cpu
    rw [Function.iterate_succ_apply, ih, update_timers_delay]
    omega

/-- Claim C2, counterexample to the sound clause as stated: with the sound
timer at 1, the tick decrements it to exactly 0 yet asserts the sound
signal, while the claim demands silence when the timer is exactly zero
after the decrement. -/
theorem timer_tick_counterexample :
    (update_timers { resetState with sound_timer := 1 }).sound_timer = 0 ∧
    (update_timers { resetState with sound_timer := 1 }).sound_flag = true :=
  ⟨rfl, rfl⟩

/-- Claim C2 (amended): one timer tick decrements each of the delay and
sound timers by exactly one when non-zero and leaves it at zero otherwise
(a delay timer set to 5 reads 0 after 5 ticks and stays 0 on further
ticks, never going below zero); and after the tick, the sound signal is
asserted iff the sound timer was non-zero BEFORE the decrement (so the
tick on which the timer reaches zero still sounds), with silence
signalled only from the following tick on. -/
theorem timer_tick_spec (cpu : Chip8CPU) :
    (cpu.delay_timer ≠ 0 → (update_timers cpu).delay_timer = cpu.delay_timer - 1) ∧
    (cpu.delay_timer = 0 → (update_timers cpu).delay_timer = 0) ∧
    (cpu.sound_timer ≠ 0 → (update_timers cpu).sound_timer = cpu.sound_timer - 1) ∧
    (cpu.sound_timer = 0 → (update_timers cpu).sound_timer = 0) ∧
    (∀ k, (update_timers^[k] cpu).delay_timer = cpu.delay_timer - k) ∧
    ((update_timers cpu).sound_flag = true ↔ cpu.sound_timer ≠ 0) := by
  refine ⟨fun _ => update_timers_delay cpu, fun h => by rw [update_timers_delay, h],
    ?_, ?_, fun k => update_timers_iterate k cpu, ?_⟩ <;>
    unfold update_timers <;>
    by_cases h : 0 < cpu.delay_timer <;>
    by_cases h' : 0 < cpu.sound_timer <;>
    simp [h, h'] <;> omega

/-- Witness for `timer_tick_spec` at a concrete state: delay timer 5 reads
0 after five ticks and after seven, and the sound clause at sound timer 3. -/
theorem timer_tick_spec_witness :
    (update_timers^[5] { resetState with delay_timer := 5, sound_timer := 3 }).delay_timer = 0 ∧
    (update_timers^[7] { resetState with delay_timer := 5, sound_timer := 3 }).delay_timer = 0 ∧
    ((update_timers { resetState with delay_timer := 5, sound_timer := 3 }).sound_flag = true ↔
      (3 : Nat) ≠ 0) := by
  refine ⟨?_, ?_, ?_⟩
  · have h := (timer_tick_spec { resetState with delay_timer := 5, sound_timer := 3 }).2.2.2.2.1 5
    simpa using h
  · have h := (timer_tick_spec { resetState with delay_timer := 5, sound_timer := 3 }).2.2.2.2.1 7
    simpa using h
  · have h := (timer_tick_spec { resetState with delay_timer := 5, sound_timer := 3 }).2.2.2.2.2
    simpa using h

/-! ## Claims C5 and C1: add-with-carry and subtract-borrow flags -/

theorem execute8_add (cpu : Chip8CPU) (x y vx vy : Nat)
    (hx : x < 16) (hV : cpu.V.length = 16)
    (hvx : cpu.V[x]? = some vx) (hvy : cpu.V[y]? = some vy) :
    execute8 cpu x y 4 = some { cpu with
      V := (cpu.V.set x ((vx + vy) &&& 0xFF)).set 15 (if 255 < vx + vy then 1 else 0) } := by
  unfold execute8
  simp [hvx, hvy, pyGet_eq_of_nonneg, pySet_eq_of_nonneg, hV, hx]

/-- Claim C5: for the ADD-with-carry instruction 8XY4, for any operand
values (in particular all byte pairs), register 0xF afterwards is 1 iff
the unsigned sum of the two operand values exceeds 255, and 0 otherwise;
this holds for every destination register X, including X = 0xF, because
the flag is written after the sum. -/
theorem add_carry_spec (cpu : Chip8CPU) (opcode rnd vx vy : Nat)
    (hop : opcode >>> 12 = 8) (hn : opcode &&& 0xF = 4)
    (hV : cpu.V.length = 16)
    (hvx : cpu.V[(opcode >>> 8) &&& 0xF]? = some vx)
    (hvy : cpu.V[(opcode >>> 4) &&& 0xF]? = some vy)
    (hbx : vx ≤ 255) (hby : vy ≤ 255) :
    ∃ cpu', execute cpu opcode rnd = some cpu' ∧
      cpu'.V[15]? = some (if 255 < vx + vy then 1 else 0) := by
  have hx : (opcode >>> 8) &&& 0xF < 16 := Nat.lt_succ_of_le Nat.and_le_right
  rw [execute_dispatch8 _ _ _ hop, hn, execute8_add cpu _ _ vx vy hx hV hvx hvy]
  refine ⟨_, rfl, ?_⟩
  simp [List.getElem?_set_self, hV]

/-- Witness for `add_carry_spec`: opcode 8014 with V0 = 200, V1 = 100. -/
theorem add_carry_spec_witness :
    ∃ cpu', execute { resetState with V := ((List.replicate 16 0).set 0 200).set 1 100 }
        0x8014 0 = some cpu' ∧
      cpu'.V[15]? = some (if 255 < 200 + 100 then 1 else 0) :=
  add_carry_spec _ 0x8014 0 200 100 (by decide) (by decide) (by decide)
    (by decide) (by decide) (by decide) (by decide)

theorem execute8_sub (cpu : Chip8CPU) (x y vx vy : Nat)
    (hx : x < 16) (hy : y < 16) (hx15 : x ≠ 15) (hV : cpu.V.length = 16)
    (hvx : cpu.V[x]? = some vx) (hvy : cpu.V[y]? = some vy) :
    ∃ v2, execute8 cpu x y 5 = some { cpu with V := v2 } ∧
      v2[15]? = some (if vy ≤ vx then 1 else 0) := by
  unfold execute8
  have h15x : (15 : Nat) ≠ x := Ne.symm hx15
  have hylen : y < (cpu.V.set 15 (if vy ≤ vx then 1 else 0)).length := by simp [hV, hy]
  simp [hvx, hvy, pyGet_eq_of_nonneg, pySet_eq_of_nonneg, hV, hx,
    List.getElem?_set_ne h15x, List.getElem?_eq_getElem hylen]
  rw [List.getElem_set_ne (by omega) (by simp [hV]), List.getElem_set_self (by simp [hV])]

theorem execute8_rsub (cpu : Chip8CPU) (x y vx vy : Nat)
    (hx : x < 16) (hy : y < 16) (hx15 : x ≠ 15) (hV : cpu.V.length = 16)
    (hvx : cpu.V[x]? = some vx) (hvy : cpu.V[y]? = some vy) :
    ∃ v2, execute8 cpu x y 7 = some { cpu with V := v2 } ∧
      v2[15]? = some (if vx ≤ vy then 1 else 0) := by
  unfold execute8
  have h15x : (15 : Nat) ≠ x := Ne.symm hx15
  have hylen : y < (cpu.V.set 15 (if vx ≤ vy then 1 else 0)).length := by simp [hV, hy]
  simp [hvx, hvy, pyGet_eq_of_nonneg, pySet_eq_of_nonneg, hV, hx,
    List.getElem?_set_ne h15x, List.getElem?_eq_getElem hylen]
  rw [List.getElem_set_ne (by omega) (by simp [hV]), List.getElem_set_self (by simp [hV])]

/-- Claim C1 (amended): for both subtract instructions 8XY5 and 8XY7 and
any operand values (in particular all byte pairs), provided the
destination register X is not 0xF itself, register 0xF after execution is
1 iff the minuend was greater than or equal to the subtrahend, and 0
otherwise.  (For X = 0xF the subtraction overwrites the just-written flag,
see the counterexample.) -/
theorem sub_borrow_spec (cpu : Chip8CPU) (opcode rnd vx vy : Nat)
    (hop : opcode >>> 12 = 8)
    (hx15 : (opcode >>> 8) &&& 0xF ≠ 15)
    (hV : cpu.V.length = 16)
    (hvx : cpu.V[(opcode >>> 8) &&& 0xF]? = some vx)
    (hvy : cpu.V[(opcode >>> 4) &&& 0xF]? = some vy)
    (hbx : vx ≤ 255) (hby : vy ≤ 255) :
    (opcode &&& 0xF = 5 → ∃ cpu', execute cpu opcode rnd = some cpu' ∧
      cpu'.V[15]? = some (if vy ≤ vx then 1 else 0)) ∧
    (opcode &&& 0xF = 7 → ∃ cpu', execute cpu opcode rnd = some cpu' ∧
      cpu'.V[15]? = some (if vx ≤ vy then 1 else 0)) := by
  have hx : (opcode >>> 8) &&& 0xF < 16 := Nat.lt_succ_of_le Nat.and_le_right
  have hy : (opcode >>> 4) &&& 0xF < 16 := Nat.lt_succ_of_le Nat.and_le_right
  constructor
  · intro hn
    obtain ⟨v2, he, hv⟩ := execute8_sub cpu _ _ vx vy hx hy hx15 hV hvx hvy
    rw [execute_dispatch8 _ _ _ hop, hn, he]
    exact ⟨_, rfl, hv⟩
  · intro hn
    obtain ⟨v2, he, hv⟩ := execute8_rsub cpu _ _ vx vy hx hy hx15 hV hvx hvy
    rw [execute_dispatch8 _ _ _ hop, hn, he]
    exact ⟨_, rfl, hv⟩

/-- Witness for `sub_borrow_spec`: opcode 8015 / 8017 with V0 = 9, V1 = 4. -/
theorem sub_borrow_spec_witness :
    (0x8015 &&& 0xF = 5 → ∃ cpu', execute { resetState with
        V := ((List.replicate 16 0).set 0 9).set 1 4 } 0x8015 0 = some cpu' ∧
      cpu'.V[15]? = some (if 4 ≤ 9 then 1 else 0)) ∧
    (0x8015 &&& 0xF = 7 → ∃ cpu', execute { resetState with
        V := ((List.replicate 16 0).set 0 9).set 1 4 } 0x8015 0 = some cpu' ∧
      cpu'.V[15]? = some (if 9 ≤ 4 then 1 else 0)) :=
  sub_borrow_spec _ 0x8015 0 9 4 (by decide) (by decide) (by decide)
    (by decide) (by decide) (by decide) (by decide)

/-- Claim C1, counterexample to the claim as stated: opcode 8F15 (SUB with
destination register 0xF) in a state with V[0xF] = 5 and V[1] = 3.  The
minuend 5 is greater than or equal to the subtrahend 3, so the claim
demands register 0xF = 1 after execution, but the code computes
V[0xF] = (1 - 3) & 0xFF = 254: the subtraction result overwrites the flag. -/
theorem sub_borrow_counterexample :
    ({ resetState with V := ((List.replicate 16 0).set 15 5).set 1 3 } : Chip8CPU).V[15]?
        = some 5 ∧
    ({ resetState with V := ((List.replicate 16 0).set 15 5).set 1 3 } : Chip8CPU).V[1]?
        = some 3 ∧
    (execute { resetState with V := ((List.replicate 16 0).set 15 5).set 1 3 } 0x8F15 0).map
        (fun c => c.V[15]?) = some (some 254) ∧
    (254 : Nat) ≠ 1 := by
  refine ⟨by decide, by decide, ?_, by decide⟩
  decide

/-! ## Claim C3: load_rom -/

/-- Claim C3: `load_rom` succeeds exactly for byte sequences of length at
most 3584; on success it resets the machine state (every field takes its
reset value), copies the bytes into memory starting at 0x200 leaving the
rest of memory as after a reset, and leaves the program counter at 0x200;
for longer sequences it fails and returns the prior state entirely
unchanged. -/
theorem load_rom_spec (cpu : Chip8CPU) (data : List Nat) (hdata : ∀ b ∈ data, b < 256) :
    (data.length ≤ 3584 →
      ∃ st, load_rom cpu data = (true, st) ∧
        st.PC = 0x200 ∧ st.SP = 0 ∧ st.I = 0 ∧
        st.V = List.replicate 16 0 ∧ st.stack = List.replicate 16 0 ∧
        st.delay_timer = 0 ∧ st.sound_timer = 0 ∧
        st.display = List.replicate 32 (List.replicate 64 0) ∧
        st.keys = List.replicate 16 0 ∧
        st.draw_flag = false ∧ st.sound_flag = false ∧
        st.waiting_for_key = false ∧ st.key_register = 0 ∧
        st.shift_quirk = true ∧ st.increment_i = true ∧ st.max_pc = 4094 ∧
        st.memory.length = 4096 ∧
        (∀ i, i < data.length → st.memory[0x200 + i]? = data[i]?) ∧
        (∀ a, a < 0x200 → st.memory[a]? = resetState.memory[a]?) ∧
        (∀ a, 0x200 + data.length ≤ a → st.memory[a]? = resetState.memory[a]?)) ∧
    (3584 < data.length → load_rom cpu data = (false, cpu)) := by
  constructor
  · intro hlen
    rw [load_rom, if_neg (by omega)]
    refine ⟨_, rfl, rfl, rfl, rfl, rfl, rfl, rfl, rfl, rfl, rfl, rfl, rfl, rfl, rfl,
      rfl, rfl, rfl, ?_, ?_, ?_, ?_⟩
    · show (writeBytes resetState.memory 0x200 data).length = 4096
      rw [writeBytes_length, resetState_memory_length]
    · intro i hi
      show (writeBytes resetState.memory 0x200 data)[0x200 + i]? = data[i]?
      rw [writeBytes_getElem?_in _ _ _ _ (by omega) (by omega)
        (by rw [resetState_memory_length]; omega)]
      have he : 0x200 + i - 0x200 = i := by omega
      rw [he]
    · intro a ha
      exact writeBytes_getElem?_lt _ _ _ _ (by omega)
    · intro a ha
      exact writeBytes_getElem?_ge _ _ _ _ (by omega)
  · intro hlen
    rw [load_rom, if_pos hlen]

/-- Witness for `load_rom_spec`: a 3-byte ROM loads with PC = 0x200 and the
bytes at 0x200.., and a 3585-byte ROM is rejected with the state unchanged. -/
theorem load_rom_spec_witness :
    (∃ st, load_rom resetState [1, 2, 3] = (true, st) ∧ st.PC = 0x200 ∧
      st.memory[0x200]? = some 1 ∧ st.memory[0x202]? = some 3) ∧
    load_rom resetState (List.replicate 3585 0) = (false, resetState) := by
  constructor
  · obtain ⟨st, h1, h2, -, -, -, -, -, -, -, -, -, -, -, -, -, -, -, -, hin, -, -⟩ :=
      (load_rom_spec resetState [1, 2, 3] (by decide)).1 (by decide)
    refine ⟨st, h1, h2, ?_, ?_⟩
    · have := hin 0 (by decide)
      simpa using this
    · have := hin 2 (by decide)
      simpa using this
  · exact (load_rom_spec resetState (List.replicate 3585 0)
      (fun b hb => by rw [List.eq_of_mem_replicate hb]; omega)).2 (by rw [List.length_replicate]; omega)

/-! ## Claim C6: key-wait blocks the execution engine -/

/-- Claim C6: while `waiting_for_key` is set, every `cycle` call is a
no-op (any number of repeated steps returns the state unchanged, hence
program counter and all registers are untouched); a subsequent key-press
event for a valid key clears the waiting state and writes the pressed
key value into the register recorded by the wait-for-key instruction. -/
theorem key_wait_spec (cpu : Chip8CPU) (h : cpu.waiting_for_key = true) :
    (∀ rnds, runCycles cpu rnds = some cpu) ∧
    (∀ k, k < 16 → cpu.keys.length = 16 → cpu.V.length = 16 → cpu.key_register < 16 →
      ∃ cpu', key_press cpu k = some cpu' ∧ cpu'.waiting_for_key = false ∧
        cpu'.V[cpu.key_register]? = some k ∧ cpu'.PC = cpu.PC) := by
  constructor
  · intro rnds
    induction rnds with
    | nil => rfl
    | cons r rest ih =>
      show List.foldlM cycle cpu (r :: rest) = some cpu
      rw [List.foldlM_cons]
      have hc : cycle cpu r = some cpu := by simp [cycle, h]
      rw [hc]
      exact ih
  · intro k hk hkeys hV hkr
    unfold key_press
    rw [pySet_eq_of_nonneg _ _ _ (by omega) (by simpa [hkeys] using hk)]
    simp only [Option.bind_some, Option.some_bind, h, if_pos]
    rw [pySet_eq_of_nonneg _ _ _ (by omega) (by simpa [hV] using hkr)]
    refine ⟨_, rfl, rfl, ?_, rfl⟩
    simp [List.getElem?_set_self, hV, hkr]

/-- Witness for `key_wait_spec`: a waiting state with key register 3 stays
unchanged over three cycles and key 7 unblocks it, writing V[3] = 7. -/
theorem key_wait_spec_witness :
    runCycles { resetState with waiting_for_key := true, key_register := 3 } [0, 0, 0] =
      some { resetState with waiting_for_key := true, key_register := 3 } ∧
    ∃ cpu', key_press { resetState with waiting_for_key := true, key_register := 3 } 7 =
        some cpu' ∧ cpu'.waiting_for_key = false ∧
      cpu'.V[({ resetState with waiting_for_key := true, key_register := 3 } :
        Chip8CPU).key_register]? = some 7 ∧
      cpu'.PC = ({ resetState with waiting_for_key := true, key_register := 3 } : Chip8CPU).PC := by
  have h := key_wait_spec { resetState with waiting_for_key := true, key_register := 3 } rfl
  exact ⟨h.1 [0, 0, 0], h.2 7 (by decide) (by decide) (by decide) (by decide)⟩

/-! ## Claim C10: unrecognized opcodes -/

/-- Claim C10, counterexample to the clause "unrecognized opcodes in other
families still advance the program counter by 2": opcode 0x5001 (family 5
with low nibble 1, not an instruction) leaves the whole state unchanged,
program counter included, instead of advancing it by 2. -/
theorem unrecognized_opcode_counterexample :
    execute resetState 0x5001 0 = some resetState ∧
    (execute resetState 0x5001 0).map (fun c => c.PC) = some 0x200 ∧
    (0x200 : Nat) ≠ 0x200 + 2 := by
  refine ⟨?_, ?_, by omega⟩ <;> rfl

/-- Claim C10 (amended): every opcode with high nibble 0 other than 0x00E0
and 0x00EE leaves the entire machine state unchanged, including the
program counter, so repeated engine steps on such an opcode make no
progress; unrecognized opcodes in the 0x8 and 0xF families still advance
the program counter by 2 (changing nothing else), while unrecognized
opcodes in the 0x5, 0x9 and 0xE families also leave the machine state
entirely unchanged. -/
theorem unrecognized_opcode_spec (cpu : Chip8CPU) (rnd opcode : Nat) :
    (opcode >>> 12 = 0 → opcode ≠ 0x00E0 → opcode ≠ 0x00EE →
      execute cpu opcode rnd = some cpu) ∧
    (opcode >>> 12 = 5 → opcode &&& 0xF ≠ 0 → execute cpu opcode rnd = some cpu) ∧
    (opcode >>> 12 = 9 → opcode &&& 0xF ≠ 0 → execute cpu opcode rnd = some cpu) ∧
    (opcode >>> 12 = 0xE → opcode &&& 0xFF ≠ 0x9E → opcode &&& 0xFF ≠ 0xA1 →
      execute cpu opcode rnd = some cpu) ∧
    (opcode >>> 12 = 8 → 8 ≤ opcode &&& 0xF → opcode &&& 0xF ≠ 0xE →
      execute cpu opcode rnd = some { cpu with PC := cpu.PC + 2 }) ∧
    (opcode >>> 12 = 0xF →
      opcode &&& 0xFF ≠ 0x07 → opcode &&& 0xFF ≠ 0x0A → opcode &&& 0xFF ≠ 0x15 →
      opcode &&& 0xFF ≠ 0x18 → opcode &&& 0xFF ≠ 0x1E → opcode &&& 0xFF ≠ 0x29 →
      opcode &&& 0xFF ≠ 0x33 → opcode &&& 0xFF ≠ 0x55 → opcode &&& 0xFF ≠ 0x65 →
      execute cpu opcode rnd = some { cpu with PC := cpu.PC + 2 }) := by
  refine ⟨?_, ?_, ?_, ?_, ?_, ?_⟩
  · intro h h1 h2
    simp [execute, h, h1, h2]
  · intro h hn
    obtain ⟨h1, h2⟩ := execute_ne_clear h (by omega)
    simp [execute, h, h1, h2, hn]
  · intro h hn
    obtain ⟨h1, h2⟩ := execute_ne_clear h (by omega)
    simp [execute, h, h1, h2, hn]
  · intro h h9E hA1
    obtain ⟨h1, h2⟩ := execute_ne_clear h (by omega)
    simp [execute, h, h1, h2, h9E, hA1]
  · intro h hge hne
    rw [execute_dispatch8 _ _ _ h]
    have c6 : opcode &&& 0xF ≠ 6 := by omega
    have c4 : opcode &&& 0xF ≠ 4 := by omega
    have c5 : opcode &&& 0xF ≠ 5 := by omega
    have c7 : opcode &&& 0xF ≠ 7 := by omega
    have c0 : opcode &&& 0xF ≠ 0 := by omega
    have c1 : opcode &&& 0xF ≠ 1 := by omega
    have c2 : opcode &&& 0xF ≠ 2 := by omega
    have c3 : opcode &&& 0xF ≠ 3 := by omega
    simp [execute8, c6, hne, c4, c5, c7, c0, c1, c2, c3]
  · intro h n07 n0A n15 n18 n1E n29 n33 n55 n65
    rw [execute_dispatchF _ _ _ h]
    simp [executeF, n07, n0A, n15, n18, n1E, n29, n33, n55, n65]

/-- Witness for `unrecognized_opcode_spec` at concrete opcodes of each
family: 0x0123, 0x5001, 0x9123, 0xE1FF are complete no-ops, while 0x8128
and 0xF1FF advance the program counter by 2. -/
theorem unrecognized_opcode_spec_witness :
    execute resetState 0x0123 0 = some resetState ∧
    execute resetState 0x5001 1 = some resetState ∧
    execute resetState 0x9123 0 = some resetState ∧
    execute resetState 0xE1FF 0 = some resetState ∧
    execute resetState 0x8128 0 = some { resetState with PC := resetState.PC + 2 } ∧
    execute resetState 0xF1FF 0 = some { resetState with PC := resetState.PC + 2 } :=
  ⟨(unrecognized_opcode_spec resetState 0 0x0123).1 (by decide) (by decide) (by decide),
   (unrecognized_opcode_spec resetState 1 0x5001).2.1 (by decide) (by decide),
   (unrecognized_opcode_spec resetState 0 0x9123).2.2.1 (by decide) (by decide),
   (unrecognized_opcode_spec resetState 0 0xE1FF).2.2.2.1 (by decide) (by decide) (by decide),
   (unrecognized_opcode_spec resetState 0 0x8128).2.2.2.2.1 (by decide) (by decide) (by decide),
   (unrecognized_opcode_spec resetState 0 0xF1FF).2.2.2.2.2 (by decide) (by decide) (by decide)
     (by decide) (by decide) (by decide) (by decide) (by decide) (by decide) (by decide)⟩

/-! ## Projection values of the reset state -/

@[simp] theorem resetState_V : resetState.V = List.replicate 16 0 := rfl
@[simp] theorem resetState_PC : resetState.PC = 0x200 := rfl
@[simp] theorem resetState_SP : resetState.SP = 0 := rfl
@[simp] theorem resetState_I : resetState.I = 0 := rfl
@[simp] theorem resetState_stack : resetState.stack = List.replicate 16 0 := rfl
@[simp] theorem resetState_delay : resetState.delay_timer = 0 := rfl
@[simp] theorem resetState_sound : resetState.sound_timer = 0 := rfl
@[simp] theorem resetState_display :
    resetState.display = List.replicate 32 (List.replicate 64 0) := rfl
@[simp] theorem resetState_keys : resetState.keys = List.replicate 16 0 := rfl
@[simp] theorem resetState_waiting : resetState.waiting_for_key = false := rfl
@[simp] theorem resetState_maxpc : resetState.max_pc = 4094 := rfl

/-! ## Claim C7: instruction execution can fault (IndexError) -/

set_option maxHeartbeats 1000000 in
/-- Claim C7 fails on the code: the 8-byte ROM `AF FF 60 FF F0 1E D0 01`
sets the index register to 0xFFF, then adds V0 = 255 (FX1E, unmasked, so
I = 4350 after three cycles), and the draw instruction D001 then evaluates
`self.memory[self.I + row]` with index 4350 on the 4096-cell memory,
raising an uncaught `IndexError` (modelled as `none`): instruction
execution is not total, contradicting the claim and the code's own
"Safety" guard intent. -/
theorem draw_index_fault :
    (load_rom resetState [0xAF, 0xFF, 0x60, 0xFF, 0xF0, 0x1E, 0xD0, 0x01]).1 = true ∧
    (runCycles (load_rom resetState [0xAF, 0xFF, 0x60, 0xFF, 0xF0, 0x1E, 0xD0, 0x01]).2
        [0, 0, 0]).map (fun c => c.I) = some 4350 ∧
    runCycles (load_rom resetState [0xAF, 0xFF, 0x60, 0xFF, 0xF0, 0x1E, 0xD0, 0x01]).2
      [0, 0, 0, 0] = none := by
  have hload : load_rom resetState [0xAF, 0xFF, 0x60, 0xFF, 0xF0, 0x1E, 0xD0, 0x01] =
      (true, { resetState with
               memory := writeBytes resetState.memory 0x200
                 [0xAF, 0xFF, 0x60, 0xFF, 0xF0, 0x1E, 0xD0, 0x01] }) := by
    rw [load_rom, if_neg (by decide)]
  set W := writeBytes resetState.memory 0x200 [0xAF, 0xFF, 0x60, 0xFF, 0xF0, 0x1E, 0xD0, 0x01]
    with hW
  have hWlen : W.length = 4096 := by rw [hW, writeBytes_length, resetState_memory_length]
  have fetch : ∀ k v, k < 8 → [0xAF, 0xFF, 0x60, 0xFF, 0xF0, 0x1E, 0xD0, 0x01][k]? = some v →
      W[512 + k]? = some v := by
    intro k v hk hv
    rw [hW, writeBytes_getElem?_in _ _ _ _ (by omega)
      (by simp only [List.length_cons, List.length_nil]; omega)
      (by rw [resetState_memory_length]; decide)]
    simpa using hv
  have f0 : W[512]? = some 0xAF := by simpa using fetch 0 0xAF (by decide) (by decide)
  have f1 : W[513]? = some 0xFF := fetch 1 0xFF (by decide) (by decide)
  have f2 : W[514]? = some 0x60 := fetch 2 0x60 (by decide) (by decide)
  have f3 : W[515]? = some 0xFF := fetch 3 0xFF (by decide) (by decide)
  have f4 : W[516]? = some 0xF0 := fetch 4 0xF0 (by decide) (by decide)
  have f5 : W[517]? = some 0x1E := fetch 5 0x1E (by decide) (by decide)
  have f6 : W[518]? = some 0xD0 := fetch 6 0xD0 (by decide) (by decide)
  have f7 : W[519]? = some 0x01 := fetch 7 0x01 (by decide) (by decide)
  have fnone : W[4350]? = none := List.getElem?_eq_none_iff.mpr (by omega)
  clear_value W
  refine ⟨by rw [hload], ?_, ?_⟩
  · rw [hload]
    show (runCycles { resetState with memory := W } [0, 0, 0]).map (fun c => c.I) = some 4350
    simp [-List.reduceReplicate, runCycles, cycle, execute, executeF,
      List.foldlM_cons, List.foldlM_nil,
      f0, f1, f2, f3, f4, f5, f6, f7, pyGet_eq_of_nonneg, pySet_eq_of_nonneg,
      List.getElem?_set_self,
      (by decide : (45055 : Nat) &&& 4095 = 4095),
      (by decide : (96 : Nat) &&& 15 = 0),
      (by decide : (24831 : Nat) &&& 255 = 255),
      (by decide : (240 : Nat) &&& 15 = 0),
      (by decide : (61470 : Nat) &&& 255 = 30)]
  · rw [hload]
    show runCycles { resetState with memory := W } [0, 0, 0, 0] = none
    simp [-List.reduceReplicate, runCycles, cycle, execute, executeF, drawRowStep,
      List.foldlM_cons, List.foldlM_nil,
      f0, f1, f2, f3, f4, f5, f6, f7, fnone, pyGet_eq_of_nonneg, pySet_eq_of_nonneg,
      List.getElem?_set_self,
      (by decide : (45055 : Nat) &&& 4095 = 4095),
      (by decide : (96 : Nat) &&& 15 = 0),
      (by decide : (24831 : Nat) &&& 255 = 255),
      (by decide : (240 : Nat) &&& 15 = 0),
      (by decide : (61470 : Nat) &&& 255 = 30),
      (by decide : (208 : Nat) &&& 15 = 0),
      (by decide : (3328 : Nat) &&& 15 = 0),
      (by decide : (53249 : Nat) &&& 15 = 1),
      (by decide : List.range 1 = [0])]

/-! ## Claim C9: store-BCD can change the memory size -/

set_option maxHeartbeats 1000000 in
/-- Claim C9 fails on the code: the ROM `AF FF F0 33` sets the index
register to 0xFFF = 4095 and then executes store-BCD.  The slice
assignment `self.memory[self.I:self.I+3] = [...]` replaces the single
cell 4095 by three bytes, growing memory from 4096 to 4098 cells:
memory size is not preserved, contradicting the fixed 4096-cell data
model (a Python slice-assignment slip, not an intended behavior). -/
theorem bcd_memory_growth :
    (load_rom resetState [0xAF, 0xFF, 0xF0, 0x33]).1 = true ∧
    resetState.memory.length = 4096 ∧
    (runCycles (load_rom resetState [0xAF, 0xFF, 0xF0, 0x33]).2 [0, 0]).map
      (fun c => c.memory.length) = some 4098 ∧
    (4098 : Nat) ≠ 4096 := by
  have hload : load_rom resetState [0xAF, 0xFF, 0xF0, 0x33] =
      (true, { resetState with
               memory := writeBytes resetState.memory 0x200 [0xAF, 0xFF, 0xF0, 0x33] }) := by
    rw [load_rom, if_neg (by decide)]
  set W := writeBytes resetState.memory 0x200 [0xAF, 0xFF, 0xF0, 0x33] with hW
  have hWlen : W.length = 4096 := by rw [hW, writeBytes_length, resetState_memory_length]
  have fetch : ∀ k v, k < 4 → [0xAF, 0xFF, 0xF0, 0x33][k]? = some v →
      W[512 + k]? = some v := by
    intro k v hk hv
    rw [hW, writeBytes_getElem?_in _ _ _ _ (by omega)
      (by simp only [List.length_cons, List.length_nil]; omega)
      (by rw [resetState_memory_length]; decide)]
    simpa using hv
  have f0 : W[512]? = some 0xAF := by simpa using fetch 0 0xAF (by decide) (by decide)
  have f1 : W[513]? = some 0xFF := fetch 1 0xFF (by decide) (by decide)
  have f2 : W[514]? = some 0xF0 := fetch 2 0xF0 (by decide) (by decide)
  have f3 : W[515]? = some 0x33 := fetch 3 0x33 (by decide) (by decide)
  clear_value W
  refine ⟨by rw [hload], resetState_memory_length, ?_, by omega⟩
  rw [hload]
  show (runCycles { resetState with memory := W } [0, 0]).map (fun c => c.memory.length) =
    some 4098
  simp [-List.reduceReplicate, runCycles, cycle, execute, executeF, pySetSlice,
    List.foldlM_cons, List.foldlM_nil, hWlen,
    f0, f1, f2, f3, pyGet_eq_of_nonneg, pySet_eq_of_nonneg,
    (by decide : (45055 : Nat) &&& 4095 = 4095),
    (by decide : (240 : Nat) &&& 15 = 0),
    (by decide : (61491 : Nat) &&& 255 = 51),
    (by decide : ((List.replicate 16 0 : List Nat))[0]? = some 0)]

/-! ## Claim C8: bounds on the program counter -/

set_option maxHeartbeats 1000000 in
/-- Claim C8, counterexample to the lower bound as stated: the 2-byte ROM
`10 00` is the jump instruction 0x1000; after one engine step from the
freshly loaded state the program counter is 0, which is not in
[0x200, 4094]. -/
theorem pc_bound_counterexample :
    (load_rom resetState [0x10, 0x00]).1 = true ∧
    (runCycles (load_rom resetState [0x10, 0x00]).2 [0]).map (fun c => c.PC) = some 0 ∧
    ¬ (0x200 ≤ (0 : Nat)) := by
  have hload : load_rom resetState [0x10, 0x00] =
      (true, { resetState with
               memory := writeBytes resetState.memory 0x200 [0x10, 0x00] }) := by
    rw [load_rom, if_neg (by decide)]
  set W := writeBytes resetState.memory 0x200 [0x10, 0x00] with hW
  have fetch : ∀ k v, k < 2 → [0x10, 0x00][k]? = some v → W[512 + k]? = some v := by
    intro k v hk hv
    rw [hW, writeBytes_getElem?_in _ _ _ _ (by omega)
      (by simp only [List.length_cons, List.length_nil]; omega)
      (by rw [resetState_memory_length]; decide)]
    simpa using hv
  have f0 : W[512]? = some 0x10 := by simpa using fetch 0 0x10 (by decide) (by decide)
  have f1 : W[513]? = some 0x00 := fetch 1 0x00 (by decide) (by decide)
  clear_value W
  refine ⟨by rw [hload], ?_, by omega⟩
  rw [hload]
  show (runCycles { resetState with memory := W } [0]).map (fun c => c.PC) = some 0
  simp [-List.reduceReplicate, runCycles, cycle, execute,
    List.foldlM_cons, List.foldlM_nil, pyGet_eq_of_nonneg, pySet_eq_of_nonneg,
    f0, f1, (by decide : (4096 : Nat) &&& 4095 = 0)]

/-! ## Invariant machinery for the program counter bound (claim C8) -/

theorem bind_eq_some_iff {α β : Type} {x : Option α} {f : α → Option β} {b : β} :
    (x >>= f) = some b ↔ ∃ a, x = some a ∧ f a = some b := Option.bind_eq_some

theorem foldlM_inv {β : Type} (P : Chip8CPU → Prop) (f : Chip8CPU → β → Option Chip8CPU)
    (hf : ∀ s a s', P s → f s a = some s' → P s') :
    ∀ (l : List β) (s s' : Chip8CPU), P s → List.foldlM f s l = some s' → P s' := by
  intro l
  induction l with
  | nil =>
    intro s s' hs h
    cases h
    exact hs
  | cons a rest ih =>
    intro s s' hs h
    rw [List.foldlM_cons, bind_eq_some_iff] at h
    obtain ⟨mid, hmid, hrest⟩ := h
    exact ih mid s' (hf s a mid hs hmid) hrest

theorem pyGet_ite_mem {l : List Nat} {q : Prop} [Decidable q] {i j : Int} {v : Nat}
    (h : (if q then pyGet l i else pyGet l j) = some v) : v ∈ l := by
  split at h <;> exact pyGet_mem h

theorem shiftRight_le_self (a k : Nat) : a >>> k ≤ a := by
  rw [Nat.shiftRight_eq_div_pow]
  exact Nat.div_le_self a (2 ^ k)

theorem subMask_lt (a b : Nat) : subMask a b < 256 := by
  unfold subMask
  have h1 : 0 ≤ ((a : Int) - b) % 256 := Int.emod_nonneg _ (by omega)
  have h2 : ((a : Int) - b) % 256 < 256 := Int.emod_lt_of_pos _ (by omega)
  omega

theorem pySetSlice_mem {l vs l' : List Nat} {i j : Nat} (h : l' = pySetSlice l i j vs)
    {a : Nat} (ha : a ∈ l') : a ∈ l ∨ a ∈ vs := by
  subst h
  unfold pySetSlice at ha
  rcases List.mem_append.mp ha with h' | h'
  · rcases List.mem_append.mp h' with h'' | h''
    · exact Or.inl (List.take_subset _ _ h'')
    · exact Or.inr h''
  · exact Or.inl (List.drop_subset _ _ h')

theorem pySet1_bound {V v1 : List Nat} {i : Int} {a : Nat}
    (hV : ∀ v ∈ V, v < 256) (ha : a < 256)
    (h1 : pySet V i a = some v1) : ∀ v ∈ v1, v < 256 := by
  intro v hv
  rcases pySet_mem h1 hv with h | h
  · exact hV v h
  · omega

theorem pySet2_bound {V v1 v2 : List Nat} {i j : Int} {a b : Nat}
    (hV : ∀ v ∈ V, v < 256) (ha : a < 256) (hb : b < 256)
    (h1 : pySet V i a = some v1) (h2 : pySet v1 j b = some v2) :
    ∀ v ∈ v2, v < 256 :=
  pySet1_bound (pySet1_bound hV ha h1) hb h2

theorem execute8_inv (cpu : Chip8CPU) (x y n : Nat) (cpu' : Chip8CPU)
    (hV : ∀ v ∈ cpu.V, v < 256)
    (he : execute8 cpu x y n = some cpu') :
    (∀ v ∈ cpu'.V, v < 256) ∧ cpu'.memory = cpu.memory ∧ cpu'.stack = cpu.stack ∧
    cpu'.PC = cpu.PC ∧ cpu'.delay_timer = cpu.delay_timer ∧ cpu'.max_pc = cpu.max_pc := by
  unfold execute8 at he
  by_cases hc0 : n = 0x6
  · rw [if_pos hc0] at he
    simp only [Option.bind_eq_some, bind_eq_some_iff] at he
    obtain ⟨val, hval, v1, hv1, v2, hv2, he⟩ := he
    injection he with he
    subst he
    have hvb : val < 256 := hV val (pyGet_ite_mem hval)
    refine ⟨pySet2_bound hV ?_ ?_ hv1 hv2, rfl, rfl, rfl, rfl, rfl⟩
    · have := Nat.and_le_right (n := val) (m := 1)
      omega
    · have := shiftRight_le_self val 1
      omega
  · rw [if_neg hc0] at he
    by_cases hc1 : n = 0xE
    · rw [if_pos hc1] at he
      simp only [Option.bind_eq_some, bind_eq_some_iff] at he
      obtain ⟨val, hval, v1, hv1, v2, hv2, he⟩ := he
      injection he with he
      subst he
      refine ⟨pySet2_bound hV ?_ ?_ hv1 hv2, rfl, rfl, rfl, rfl, rfl⟩
      · have := Nat.and_le_right (n := val >>> 7) (m := 1)
        omega
      · have := Nat.and_le_right (n := val <<< 1) (m := 0xFF)
        omega
    · rw [if_neg hc1] at he
      by_cases hc2 : n = 0x4
      · rw [if_pos hc2] at he
        simp only [bind_eq_some_iff] at he
        obtain ⟨vx, hvx, vy, hvy, v1, hv1, v2, hv2, he⟩ := he
        injection he with he
        subst he
        refine ⟨pySet2_bound hV ?_ ?_ hv1 hv2, rfl, rfl, rfl, rfl, rfl⟩
        · have := Nat.and_le_right (n := vx + vy) (m := 0xFF)
          omega
        · split <;> omega
      · rw [if_neg hc2] at he
        by_cases hc3 : n = 0x5
        · rw [if_pos hc3] at he
          simp only [bind_eq_some_iff] at he
          obtain ⟨vx, hvx, vy, hvy, v1, hv1, vx2, hvx2, vy2, hvy2, v2, hv2, he⟩ := he
          injection he with he
          subst he
          refine ⟨pySet2_bound hV ?_ (subMask_lt _ _) hv1 hv2, rfl, rfl, rfl, rfl, rfl⟩
          split <;> omega
        · rw [if_neg hc3] at he
          by_cases hc4 : n = 0x7
          · rw [if_pos hc4] at he
            simp only [bind_eq_some_iff] at he
            obtain ⟨vx, hvx, vy, hvy, v1, hv1, vx2, hvx2, vy2, hvy2, v2, hv2, he⟩ := he
            injection he with he
            subst he
            refine ⟨pySet2_bound hV ?_ (subMask_lt _ _) hv1 hv2, rfl, rfl, rfl, rfl, rfl⟩
            split <;> omega
          · rw [if_neg hc4] at he
            by_cases hc5 : n = 0x0
            · rw [if_pos hc5] at he
              simp only [bind_eq_some_iff] at he
              obtain ⟨vy, hvy, v1, hv1, he⟩ := he
              injection he with he
              subst he
              exact ⟨pySet1_bound hV (hV vy (pyGet_mem hvy)) hv1, rfl, rfl, rfl, rfl, rfl⟩
            · rw [if_neg hc5] at he
              by_cases hc6 : n = 0x1
              · rw [if_pos hc6] at he
                simp only [bind_eq_some_iff] at he
                obtain ⟨vx, hvx, vy, hvy, v1, hv1, v2, hv2, he⟩ := he
                injection he with he
                subst he
                refine ⟨pySet2_bound hV ?_ (by omega) hv1 hv2, rfl, rfl, rfl, rfl, rfl⟩
                exact Nat.or_lt_two_pow (n := 8) (hV vx (pyGet_mem hvx)) (hV vy (pyGet_mem hvy))
              · rw [if_neg hc6] at he
                by_cases hc7 : n = 0x2
                · rw [if_pos hc7] at he
                  simp only [bind_eq_some_iff] at he
                  obtain ⟨vx, hvx, vy, hvy, v1, hv1, v2, hv2, he⟩ := he
                  injection he with he
                  subst he
                  refine ⟨pySet2_bound hV ?_ (by omega) hv1 hv2, rfl, rfl, rfl, rfl, rfl⟩
                  have := Nat.and_le_right (n := vx) (m := vy)
                  have := hV vy (pyGet_mem hvy)
                  omega
                · rw [if_neg hc7] at he
                  by_cases hc8 : n = 0x3
                  · rw [if_pos hc8] at he
                    simp only [bind_eq_some_iff] at he
                    obtain ⟨vx, hvx, vy, hvy, v1, hv1, v2, hv2, he⟩ := he
                    injection he with he
                    subst he
                    refine ⟨pySet2_bound hV ?_ (by omega) hv1 hv2, rfl, rfl, rfl, rfl, rfl⟩
                    exact Nat.xor_lt_two_pow (n := 8) (hV vx (pyGet_mem hvx)) (hV vy (pyGet_mem hvy))
                  · rw [if_neg hc8] at he
                    injection he with he
                    subst he
                    exact ⟨hV, rfl, rfl, rfl, rfl, rfl⟩

theorem dumpStep_pres (cpu0 : Chip8CPU) (s : Chip8CPU) (i : Nat) (s' : Chip8CPU)
    (hP : (∀ b ∈ s.memory, b < 256) ∧ s.V = cpu0.V ∧ s.stack = cpu0.stack ∧
      s.PC = cpu0.PC ∧ s.delay_timer = cpu0.delay_timer ∧ s.max_pc = cpu0.max_pc ∧
      s.I = cpu0.I)
    (hV0 : ∀ v ∈ cpu0.V, v < 256)
    (he : dumpStep s i = some s') :
    (∀ b ∈ s'.memory, b < 256) ∧ s'.V = cpu0.V ∧ s'.stack = cpu0.stack ∧
    s'.PC = cpu0.PC ∧ s'.delay_timer = cpu0.delay_timer ∧ s'.max_pc = cpu0.max_pc ∧
    s'.I = cpu0.I := by
  unfold dumpStep at he
  simp only [bind_eq_some_iff] at he
  obtain ⟨vi, hvi, mem, hm, he⟩ := he
  injection he with he
  subst he
  obtain ⟨h1, h2, h3, h4, h5, h6, h7⟩ := hP
  refine ⟨?_, h2, h3, h4, h5, h6, h7⟩
  have hvb : vi < 256 := by
    have : vi ∈ s.V := pyGet_mem hvi
    rw [h2] at this
    exact hV0 vi this
  exact pySet1_bound h1 hvb hm

theorem loadStep_pres (cpu0 : Chip8CPU) (s : Chip8CPU) (i : Nat) (s' : Chip8CPU)
    (hP : (∀ v ∈ s.V, v < 256) ∧ s.memory = cpu0.memory ∧ s.stack = cpu0.stack ∧
      s.PC = cpu0.PC ∧ s.delay_timer = cpu0.delay_timer ∧ s.max_pc = cpu0.max_pc ∧
      s.I = cpu0.I)
    (hmem0 : ∀ b ∈ cpu0.memory, b < 256)
    (he : loadStep s i = some s') :
    (∀ v ∈ s'.V, v < 256) ∧ s'.memory = cpu0.memory ∧ s'.stack = cpu0.stack ∧
    s'.PC = cpu0.PC ∧ s'.delay_timer = cpu0.delay_timer ∧ s'.max_pc = cpu0.max_pc ∧
    s'.I = cpu0.I := by
  unfold loadStep at he
  simp only [bind_eq_some_iff] at he
  obtain ⟨mi, hmi, v, hv, he⟩ := he
  injection he with he
  subst he
  obtain ⟨h1, h2, h3, h4, h5, h6, h7⟩ := hP
  refine ⟨?_, h2, h3, h4, h5, h6, h7⟩
  have hmb : mi < 256 := by
    have : mi ∈ s.memory := pyGet_mem hmi
    rw [h2] at this
    exact hmem0 mi this
  exact pySet1_bound h1 hmb hv

theorem drawPixel_pres (x y : Nat) (cpu0 : Chip8CPU) (s : Chip8CPU) (row col : Nat)
    (s' : Chip8CPU)
    (hP : (∀ v ∈ s.V, v < 256) ∧ s.memory = cpu0.memory ∧ s.stack = cpu0.stack ∧
      s.PC = cpu0.PC ∧ s.delay_timer = cpu0.delay_timer ∧ s.max_pc = cpu0.max_pc ∧
      s.I = cpu0.I)
    (he : drawPixel s x y row col = some s') :
    (∀ v ∈ s'.V, v < 256) ∧ s'.memory = cpu0.memory ∧ s'.stack = cpu0.stack ∧
    s'.PC = cpu0.PC ∧ s'.delay_timer = cpu0.delay_timer ∧ s'.max_pc = cpu0.max_pc ∧
    s'.I = cpu0.I := by
  unfold drawPixel at he
  simp only [Option.bind_eq_some, bind_eq_some_iff] at he
  obtain ⟨vx, hvx, vy, hvy, rl, hrl, pix, hpix, cpu1, hcpu1, nr, hnr, disp, hdisp, he⟩ := he
  injection he with he
  subst he
  obtain ⟨h1, h2, h3, h4, h5, h6, h7⟩ := hP
  have hc1 : (∀ v ∈ cpu1.V, v < 256) ∧ cpu1.memory = cpu0.memory ∧
      cpu1.stack = cpu0.stack ∧ cpu1.PC = cpu0.PC ∧ cpu1.delay_timer = cpu0.delay_timer ∧
      cpu1.max_pc = cpu0.max_pc ∧ cpu1.I = cpu0.I := by
    split at hcpu1
    · rw [Option.bind_eq_some] at hcpu1
      obtain ⟨v, hv, hcpu1⟩ := hcpu1
      injection hcpu1 with hcpu1
      subst hcpu1
      exact ⟨pySet1_bound h1 (by omega) hv, h2, h3, h4, h5, h6, h7⟩
    · injection hcpu1 with hcpu1
      subst hcpu1
      exact ⟨h1, h2, h3, h4, h5, h6, h7⟩
  exact ⟨hc1.1, hc1.2.1, hc1.2.2.1, hc1.2.2.2.1, hc1.2.2.2.2.1, hc1.2.2.2.2.2.1,
    hc1.2.2.2.2.2.2⟩

theorem drawRowStep_pres (x y : Nat) (cpu0 : Chip8CPU) (s : Chip8CPU) (row : Nat)
    (s' : Chip8CPU)
    (hP : (∀ v ∈ s.V, v < 256) ∧ s.memory = cpu0.memory ∧ s.stack = cpu0.stack ∧
      s.PC = cpu0.PC ∧ s.delay_timer = cpu0.delay_timer ∧ s.max_pc = cpu0.max_pc ∧
      s.I = cpu0.I)
    (he : drawRowStep x y s row = some s') :
    (∀ v ∈ s'.V, v < 256) ∧ s'.memory = cpu0.memory ∧ s'.stack = cpu0.stack ∧
    s'.PC = cpu0.PC ∧ s'.delay_timer = cpu0.delay_timer ∧ s'.max_pc = cpu0.max_pc ∧
    s'.I = cpu0.I := by
  unfold drawRowStep at he
  simp only [bind_eq_some_iff] at he
  obtain ⟨sprite, hsprite, he⟩ := he
  refine foldlM_inv (fun t => (∀ v ∈ t.V, v < 256) ∧ t.memory = cpu0.memory ∧
      t.stack = cpu0.stack ∧ t.PC = cpu0.PC ∧ t.delay_timer = cpu0.delay_timer ∧
      t.max_pc = cpu0.max_pc ∧ t.I = cpu0.I)
    (drawStep x y row sprite) ?_ (List.range 8) s s' hP he
  intro t col t' hPt ht
  unfold drawStep at ht
  split at ht
  · exact drawPixel_pres x y cpu0 t row col t' hPt ht
  · injection ht with ht
    subst ht
    exact hPt

theorem executeF_inv (cpu : Chip8CPU) (x nn : Nat) (cpu' : Chip8CPU)
    (hmem : ∀ b ∈ cpu.memory, b < 256) (hV : ∀ v ∈ cpu.V, v < 256)
    (hdelay : cpu.delay_timer < 256)
    (he : executeF cpu x nn = some cpu') :
    (∀ b ∈ cpu'.memory, b < 256) ∧ (∀ v ∈ cpu'.V, v < 256) ∧
    cpu'.stack = cpu.stack ∧ cpu'.PC = cpu.PC ∧ cpu'.delay_timer < 256 ∧
    cpu'.max_pc = cpu.max_pc := by
  unfold executeF at he
  by_cases h07 : nn = 0x07
  · rw [if_pos h07] at he
    simp only [bind_eq_some_iff] at he
    obtain ⟨v, hv, he⟩ := he
    injection he with he
    subst he
    exact ⟨hmem, pySet1_bound hV hdelay hv, rfl, rfl, hdelay, rfl⟩
  · rw [if_neg h07] at he
    by_cases h0A : nn = 0x0A
    · rw [if_pos h0A] at he
      injection he with he
      subst he
      exact ⟨hmem, hV, rfl, rfl, hdelay, rfl⟩
    · rw [if_neg h0A] at he
      by_cases h15 : nn = 0x15
      · rw [if_pos h15] at he
        simp only [bind_eq_some_iff] at he
        obtain ⟨vx, hvx, he⟩ := he
        injection he with he
        subst he
        exact ⟨hmem, hV, rfl, rfl, hV vx (pyGet_mem hvx), rfl⟩
      · rw [if_neg h15] at he
        by_cases h18 : nn = 0x18
        · rw [if_pos h18] at he
          simp only [bind_eq_some_iff] at he
          obtain ⟨vx, hvx, he⟩ := he
          injection he with he
          subst he
          exact ⟨hmem, hV, rfl, rfl, hdelay, rfl⟩
        · rw [if_neg h18] at he
          by_cases h1E : nn = 0x1E
          · rw [if_pos h1E] at he
            simp only [bind_eq_some_iff] at he
            obtain ⟨vx, hvx, he⟩ := he
            injection he with he
            subst he
            exact ⟨hmem, hV, rfl, rfl, hdelay, rfl⟩
          · rw [if_neg h1E] at he
            by_cases h29 : nn = 0x29
            · rw [if_pos h29] at he
              simp only [bind_eq_some_iff] at he
              obtain ⟨vx, hvx, he⟩ := he
              injection he with he
              subst he
              exact ⟨hmem, hV, rfl, rfl, hdelay, rfl⟩
            · rw [if_neg h29] at he
              by_cases h33 : nn = 0x33
              · rw [if_pos h33] at he
                simp only [bind_eq_some_iff] at he
                obtain ⟨vx, hvx, he⟩ := he
                injection he with he
                subst he
                refine ⟨?_, hV, rfl, rfl, hdelay, rfl⟩
                intro b hb
                rcases pySetSlice_mem rfl hb with h | h
                · exact hmem b h
                · have hvb : vx < 256 := hV vx (pyGet_mem hvx)
                  simp only [List.mem_cons, List.not_mem_nil, or_false] at h
                  rcases h with rfl | rfl | rfl <;> omega
              · rw [if_neg h33] at he
                by_cases h55 : nn = 0x55
                · rw [if_pos h55] at he
                  simp only [bind_eq_some_iff] at he
                  obtain ⟨cpu1, hloop, he⟩ := he
                  have hP1 := foldlM_inv (fun t => (∀ b ∈ t.memory, b < 256) ∧
                      t.V = cpu.V ∧ t.stack = cpu.stack ∧ t.PC = cpu.PC ∧
                      t.delay_timer = cpu.delay_timer ∧ t.max_pc = cpu.max_pc ∧
                      t.I = cpu.I) dumpStep
                    (fun s a s' hP hstep => dumpStep_pres cpu s a s' hP hV hstep)
                    (List.range (x + 1)) cpu cpu1
                    ⟨hmem, rfl, rfl, rfl, rfl, rfl, rfl⟩ hloop
                  injection he with he
                  subst he
                  obtain ⟨p1, p2, p3, p4, p5, p6, p7⟩ := hP1
                  split
                  · refine ⟨p1, ?_, p3, p4, ?_, p6⟩
                    · rw [show ({ cpu1 with I := cpu1.I + x + 1 } : Chip8CPU).V = cpu1.V
                        from rfl, p2]
                      exact hV
                    · show cpu1.delay_timer < 256
                      omega
                  · refine ⟨p1, ?_, p3, p4, ?_, p6⟩
                    · rw [p2]
                      exact hV
                    · show cpu1.delay_timer < 256
                      omega
                · rw [if_neg h55] at he
                  by_cases h65 : nn = 0x65
                  · rw [if_pos h65] at he
                    simp only [bind_eq_some_iff] at he
                    obtain ⟨cpu1, hloop, he⟩ := he
                    have hP1 := foldlM_inv (fun t => (∀ v ∈ t.V, v < 256) ∧
                        t.memory = cpu.memory ∧ t.stack = cpu.stack ∧ t.PC = cpu.PC ∧
                        t.delay_timer = cpu.delay_timer ∧ t.max_pc = cpu.max_pc ∧
                        t.I = cpu.I) loadStep
                      (fun s a s' hP hstep => loadStep_pres cpu s a s' hP hmem hstep)
                      (List.range (x + 1)) cpu cpu1
                      ⟨hV, rfl, rfl, rfl, rfl, rfl, rfl⟩ hloop
                    injection he with he
                    subst he
                    obtain ⟨p1, p2, p3, p4, p5, p6, p7⟩ := hP1
                    split
                    · refine ⟨?_, p1, p3, p4, ?_, p6⟩
                      · rw [show ({ cpu1 with I := cpu1.I + x + 1 } : Chip8CPU).memory =
                          cpu1.memory from rfl, p2]
                        exact hmem
                      · show cpu1.delay_timer < 256
                        omega
                    · refine ⟨?_, p1, p3, p4, ?_, p6⟩
                      · rw [p2]
                        exact hmem
                      · show cpu1.delay_timer < 256
                        omega
                  · rw [if_neg h65] at he
                    injection he with he
                    subst he
                    exact ⟨hmem, hV, rfl, rfl, hdelay, rfl⟩
theorem execute_inv (cpu cpu' : Chip8CPU) (opcode rnd : Nat)
    (hmem : ∀ b ∈ cpu.memory, b < 256) (hV : ∀ v ∈ cpu.V, v < 256)
    (hstack : ∀ r ∈ cpu.stack, r ≤ 4093) (hdelay : cpu.delay_timer < 256)
    (hPC : cpu.PC < 4094)
    (he : execute cpu opcode rnd = some cpu') :
    (∀ b ∈ cpu'.memory, b < 256) ∧ (∀ v ∈ cpu'.V, v < 256) ∧
    (∀ r ∈ cpu'.stack, r ≤ 4093) ∧ cpu'.delay_timer < 256 ∧
    cpu'.PC ≤ 4350 ∧ cpu'.max_pc = cpu.max_pc := by
  simp only [execute] at he
  by_cases hb0 : opcode = 224
  · rw [if_pos hb0] at he
    injection he with he
    subst he
    exact ⟨hmem, hV, hstack, hdelay, (by omega : cpu.PC + 2 ≤ 4350), rfl⟩
  · rw [if_neg hb0] at he
    by_cases hb1 : opcode = 238
    · rw [if_pos hb1] at he
      simp only [bind_eq_some_iff] at he
      obtain ⟨ret, hret, he⟩ := he
      injection he with he
      subst he
      have hr : ret ≤ 4093 := hstack ret (pyGet_mem hret)
      exact ⟨hmem, hV, hstack, hdelay, (by omega : ret + 2 ≤ 4350), rfl⟩
    · rw [if_neg hb1] at he
      by_cases hb2 : opcode >>> 12 = 1
      · rw [if_pos hb2] at he
        injection he with he
        subst he
        have hn : opcode &&& 4095 ≤ 4095 := Nat.and_le_right
        exact ⟨hmem, hV, hstack, hdelay, (by omega : opcode &&& 4095 ≤ 4350), rfl⟩
      · rw [if_neg hb2] at he
        by_cases hb3 : opcode >>> 12 = 2
        · rw [if_pos hb3] at he
          simp only [bind_eq_some_iff] at he
          obtain ⟨stk, hstk, he⟩ := he
          injection he with he
          subst he
          have hn : opcode &&& 4095 ≤ 4095 := Nat.and_le_right
          refine ⟨hmem, hV, ?_, hdelay, (by omega : opcode &&& 4095 ≤ 4350), rfl⟩
          intro r hr
          rcases pySet_mem hstk hr with h | h
          · exact hstack r h
          · omega
        · rw [if_neg hb3] at he
          by_cases hb4 : opcode >>> 12 = 3
          · rw [if_pos hb4] at he
            simp only [bind_eq_some_iff] at he
            obtain ⟨vx, hvx, he⟩ := he
            injection he with he
            subst he
            refine ⟨hmem, hV, hstack, hdelay, ?_, rfl⟩
            show cpu.PC + (if vx = opcode &&& 255 then 4 else 2) ≤ 4350
            split <;> omega
          · rw [if_neg hb4] at he
            by_cases hb5 : opcode >>> 12 = 4
            · rw [if_pos hb5] at he
              simp only [bind_eq_some_iff] at he
              obtain ⟨vx, hvx, he⟩ := he
              injection he with he
              subst he
              refine ⟨hmem, hV, hstack, hdelay, ?_, rfl⟩
              show cpu.PC + (if vx ≠ opcode &&& 255 then 4 else 2) ≤ 4350
              split <;> omega
            · rw [if_neg hb5] at he
              by_cases hb6 : opcode >>> 12 = 5 ∧ opcode &&& 15 = 0
              · rw [if_pos hb6] at he
                simp only [bind_eq_some_iff] at he
                obtain ⟨vx, hvx, vy, hvy, he⟩ := he
                injection he with he
                subst he
                refine ⟨hmem, hV, hstack, hdelay, ?_, rfl⟩
                show cpu.PC + (if vx = vy then 4 else 2) ≤ 4350
                split <;> omega
              · rw [if_neg hb6] at he
                by_cases hb7 : opcode >>> 12 = 6
                · rw [if_pos hb7] at he
                  simp only [bind_eq_some_iff] at he
                  obtain ⟨v, hv, he⟩ := he
                  injection he with he
                  subst he
                  have hn : opcode &&& 255 ≤ 255 := Nat.and_le_right
                  exact ⟨hmem, pySet1_bound hV (by omega) hv, hstack, hdelay,
                    (by omega : cpu.PC + 2 ≤ 4350), rfl⟩
                · rw [if_neg hb7] at he
                  by_cases hb8 : opcode >>> 12 = 7
                  · rw [if_pos hb8] at he
                    simp only [bind_eq_some_iff] at he
                    obtain ⟨vx, hvx, v, hv, he⟩ := he
                    injection he with he
                    subst he
                    have hb : (vx + (opcode &&& 255)) &&& 255 ≤ 255 := Nat.and_le_right
                    exact ⟨hmem, pySet1_bound hV (by omega) hv, hstack, hdelay,
                      (by omega : cpu.PC + 2 ≤ 4350), rfl⟩
                  · rw [if_neg hb8] at he
                    by_cases hb9 : opcode >>> 12 = 8
                    · rw [if_pos hb9] at he
                      simp only [bind_eq_some_iff] at he
                      obtain ⟨c1, hc1, he⟩ := he
                      injection he with he
                      subst he
                      obtain ⟨q1, q2, q3, q4, q5, q6⟩ := execute8_inv cpu _ _ _ c1 hV hc1
                      refine ⟨?_, q1, ?_, ?_, ?_, q6⟩
                      · show ∀ b ∈ c1.memory, b < 256
                        rw [q2]
                        exact hmem
                      · show ∀ r ∈ c1.stack, r ≤ 4093
                        rw [q3]
                        exact hstack
                      · show c1.delay_timer < 256
                        omega
                      · show c1.PC + 2 ≤ 4350
                        omega
                    · rw [if_neg hb9] at he
                      by_cases hb10 : opcode >>> 12 = 9 ∧ opcode &&& 15 = 0
                      · rw [if_pos hb10] at he
                        simp only [bind_eq_some_iff] at he
                        obtain ⟨vx, hvx, vy, hvy, he⟩ := he
                        injection he with he
                        subst he
                        refine ⟨hmem, hV, hstack, hdelay, ?_, rfl⟩
                        show cpu.PC + (if vx ≠ vy then 4 else 2) ≤ 4350
                        split <;> omega
                      · rw [if_neg hb10] at he
                        by_cases hb11 : opcode >>> 12 = 10
                        · rw [if_pos hb11] at he
                          injection he with he
                          subst he
                          exact ⟨hmem, hV, hstack, hdelay, (by omega : cpu.PC + 2 ≤ 4350), rfl⟩
                        · rw [if_neg hb11] at he
                          by_cases hb12 : opcode >>> 12 = 11
                          · rw [if_pos hb12] at he
                            simp only [bind_eq_some_iff] at he
                            obtain ⟨v0, hv0, he⟩ := he
                            injection he with he
                            subst he
                            have h0 : v0 < 256 := hV v0 (pyGet_mem hv0)
                            have hn : opcode &&& 4095 ≤ 4095 := Nat.and_le_right
                            exact ⟨hmem, hV, hstack, hdelay, (by omega : (opcode &&& 4095) + v0 ≤ 4350), rfl⟩
                          · rw [if_neg hb12] at he
                            by_cases hb13 : opcode >>> 12 = 12
                            · rw [if_pos hb13] at he
                              simp only [bind_eq_some_iff] at he
                              obtain ⟨v, hv, he⟩ := he
                              injection he with he
                              subst he
                              have hb : rnd &&& (opcode &&& 255) ≤ opcode &&& 255 := Nat.and_le_right
                              have hb2 : opcode &&& 255 ≤ 255 := Nat.and_le_right
                              exact ⟨hmem, pySet1_bound hV (by omega) hv, hstack, hdelay,
                                (by omega : cpu.PC + 2 ≤ 4350), rfl⟩
                            · rw [if_neg hb13] at he
                              by_cases hb14 : opcode >>> 12 = 13
                              · rw [if_pos hb14] at he
                                simp only [bind_eq_some_iff] at he
                                obtain ⟨v, hv, c1, hloop, he⟩ := he
                                injection he with he
                                subst he
                                have hP1 := foldlM_inv (fun t => (∀ w ∈ t.V, w < 256) ∧ t.memory = cpu.memory ∧
                                    t.stack = cpu.stack ∧ t.PC = cpu.PC ∧ t.delay_timer = cpu.delay_timer ∧
                                    t.max_pc = cpu.max_pc ∧ t.I = cpu.I) _
                                  (fun s a s' hP hstep => drawRowStep_pres _ _ cpu s a s' hP hstep)
                                  (List.range (opcode &&& 15)) { cpu with V := v } c1
                                  ⟨pySet1_bound hV (by omega) hv, rfl, rfl, rfl, rfl, rfl, rfl⟩ hloop
                                obtain ⟨q1, q2, q3, q4, q5, q6, q7⟩ := hP1
                                refine ⟨?_, q1, ?_, ?_, ?_, ?_⟩
                                · show ∀ b ∈ c1.memory, b < 256
                                  rw [q2]
                                  exact hmem
                                · show ∀ r ∈ c1.stack, r ≤ 4093
                                  rw [q3]
                                  exact hstack
                                · show c1.delay_timer < 256
                                  omega
                                · show c1.PC + 2 ≤ 4350
                                  omega
                                · exact q6
                              · rw [if_neg hb14] at he
                                by_cases hb15 : opcode >>> 12 = 14
                                · rw [if_pos hb15] at he
                                  by_cases h9E : opcode &&& 255 = 158
                                  · rw [if_pos h9E] at he
                                    simp only [bind_eq_some_iff] at he
                                    obtain ⟨vx, hvx, k, hk, he⟩ := he
                                    injection he with he
                                    subst he
                                    refine ⟨hmem, hV, hstack, hdelay, ?_, rfl⟩
                                    show cpu.PC + (if k ≠ 0 then 4 else 2) ≤ 4350
                                    split <;> omega
                                  · rw [if_neg h9E] at he
                                    by_cases hA1 : opcode &&& 255 = 161
                                    · rw [if_pos hA1] at he
                                      simp only [bind_eq_some_iff] at he
                                      obtain ⟨vx, hvx, k, hk, he⟩ := he
                                      injection he with he
                                      subst he
                                      refine ⟨hmem, hV, hstack, hdelay, ?_, rfl⟩
                                      show cpu.PC + (if k = 0 then 4 else 2) ≤ 4350
                                      split <;> omega
                                    · rw [if_neg hA1] at he
                                      injection he with he
                                      subst he
                                      exact ⟨hmem, hV, hstack, hdelay, (by omega : cpu.PC ≤ 4350), rfl⟩
                                · rw [if_neg hb15] at he
                                  by_cases hb16 : opcode >>> 12 = 15
                                  · rw [if_pos hb16] at he
                                    simp only [bind_eq_some_iff] at he
                                    obtain ⟨c1, hc1, he⟩ := he
                                    injection he with he
                                    subst he
                                    obtain ⟨q1, q2, q3, q4, q5, q6⟩ := executeF_inv cpu _ _ c1 hmem hV hdelay hc1
                                    refine ⟨q1, q2, ?_, q5, ?_, q6⟩
                                    · show ∀ r ∈ c1.stack, r ≤ 4093
                                      rw [q3]
                                      exact hstack
                                    · show c1.PC + 2 ≤ 4350
                                      omega
                                  · rw [if_neg hb16] at he
                                    injection he with he
                                    subst he
                                    exact ⟨hmem, hV, hstack, hdelay, (by omega : cpu.PC ≤ 4350), rfl⟩


theorem cycle_inv (cpu cpu' : Chip8CPU) (rnd : Nat)
    (h : (∀ b ∈ cpu.memory, b < 256) ∧ (∀ v ∈ cpu.V, v < 256) ∧
      (∀ r ∈ cpu.stack, r ≤ 4093) ∧ cpu.delay_timer < 256 ∧ cpu.PC ≤ 4350 ∧
      cpu.max_pc = 4094)
    (he : cycle cpu rnd = some cpu') :
    (∀ b ∈ cpu'.memory, b < 256) ∧ (∀ v ∈ cpu'.V, v < 256) ∧
    (∀ r ∈ cpu'.stack, r ≤ 4093) ∧ cpu'.delay_timer < 256 ∧ cpu'.PC ≤ 4350 ∧
    cpu'.max_pc = 4094 := by
  obtain ⟨h1, h2, h3, h4, h5, h6⟩ := h
  unfold cycle at he
  by_cases hw : cpu.waiting_for_key = true
  · rw [if_pos hw] at he
    injection he with he
    subst he
    exact ⟨h1, h2, h3, h4, h5, h6⟩
  · rw [if_neg hw] at he
    by_cases hg : cpu.max_pc ≤ cpu.PC
    · rw [if_pos hg] at he
      injection he with he
      subst he
      exact ⟨h1, h2, h3, h4, h5, h6⟩
    · rw [if_neg hg] at he
      simp only [bind_eq_some_iff] at he
      obtain ⟨hi, hhi, lo, hlo, he⟩ := he
      have hPClt : cpu.PC < 4094 := by
        rw [h6] at hg
        omega
      obtain ⟨q1, q2, q3, q4, q5, q6⟩ :=
        execute_inv cpu cpu' _ rnd h1 h2 h3 h4 hPClt he
      refine ⟨q1, q2, q3, q4, q5, ?_⟩
      rw [q6, h6]

/-- Claim C8 (amended): starting from a reset state with any loaded ROM
(byte values below 256), after every sequence of execution-engine steps
the program counter is at most 4350 = 0xFFF + 0xFF.  It does NOT always
stay within [0x200, 4094]: a jump instruction can set it below 0x200
(see the counterexample: PC = 0 after one step), and jump-with-offset or
a skip taken near the boundary can exceed 4094. -/
theorem pc_bound_spec (data : List Nat) (hdata : ∀ b ∈ data, b < 256)
    (st0 : Chip8CPU) (hload : load_rom resetState data = (true, st0))
    (rnds : List Nat) (st' : Chip8CPU) (hrun : runCycles st0 rnds = some st') :
    st'.PC ≤ 4350 := by
  unfold load_rom at hload
  split at hload
  · exact absurd (congrArg Prod.fst hload) (by simp)
  · injection hload with hfst hst
    have base : (∀ b ∈ st0.memory, b < 256) ∧ (∀ v ∈ st0.V, v < 256) ∧
        (∀ r ∈ st0.stack, r ≤ 4093) ∧ st0.delay_timer < 256 ∧ st0.PC ≤ 4350 ∧
        st0.max_pc = 4094 := by
      subst hst
      refine ⟨?_, ?_, ?_, ?_, ?_, rfl⟩
      · intro b hb
        rcases mem_writeBytes _ _ _ hb with h | h
        · exact resetState_memory_lt b h
        · exact hdata b h
      · intro v hv
        have hv' : v ∈ List.replicate 16 0 := hv
        rw [List.eq_of_mem_replicate hv']
        omega
      · intro r hr
        have hr' : r ∈ List.replicate 16 0 := hr
        rw [List.eq_of_mem_replicate hr']
        omega
      · show (0 : Nat) < 256
        omega
      · show (0x200 : Nat) ≤ 4350
        omega
    exact (foldlM_inv (fun t => (∀ b ∈ t.memory, b < 256) ∧ (∀ v ∈ t.V, v < 256) ∧
        (∀ r ∈ t.stack, r ≤ 4093) ∧ t.delay_timer < 256 ∧ t.PC ≤ 4350 ∧
        t.max_pc = 4094) cycle
      (fun s a s' hP h => cycle_inv s s' a hP h) rnds st0 st' base hrun).2.2.2.2.1

/-- Witness for `pc_bound_spec`: the 3-byte ROM [1, 2, 3] freshly loaded,
zero engine steps. -/
theorem pc_bound_spec_witness :
    ({ resetState with memory := writeBytes resetState.memory 0x200 [1, 2, 3] } :
      Chip8CPU).PC ≤ 4350 :=
  pc_bound_spec [1, 2, 3] (by decide) _ (by rw [load_rom, if_neg (by decide)]) [] _ rfl

/-! ## Claim C4: the DXYN blit, collision flag and XOR round trip -/

/-- The pixel value of a row-major display at (row, column). -/
def pixVal (d : List (List Nat)) (r c : Nat) : Option Nat :=
  (d[r]?).bind fun rw_ => rw_[c]?

/-- Columns among the first `j` of sprite byte `s` that map (with wraparound
modulo 64) onto display column `c`, drawn at horizontal position `vx`. -/
def rowMaskBit (s vx j c : Nat) : Bool :=
  (List.range j).any fun col => decide (s &&& (128 >>> col) ≠ 0 ∧ c = (vx + col) % 64)

/-- Whether one of the first `j` set sprite bits of byte `s` lands on a
lit pixel of the row whose values are given by `pv`. -/
def rowCollB (s vx j : Nat) (pv : Nat → Nat) : Bool :=
  (List.range j).any fun col => decide (s &&& (128 >>> col) ≠ 0 ∧ pv ((vx + col) % 64) ≠ 0)

/-- Whether pixel (r, c) is touched by the first `k` sprite rows read from
`mem` at `I0`, drawn at (vx, vy) with wraparound modulo 64 and 32. -/
def maskBitUpTo (mem : List Nat) (I0 vx vy k r c : Nat) : Bool :=
  (List.range k).any fun row =>
    decide (r = (vy + row) % 32) && rowMaskBit (mem.getD (I0 + row) 0) vx 8 c

/-- Whether one of the first `k` sprite rows collides with a lit pixel of
the original display `d0`. -/
def collUpTo (mem : List Nat) (I0 vx vy : Nat) (d0 : List (List Nat)) (k : Nat) : Bool :=
  (List.range k).any fun row =>
    rowCollB (mem.getD (I0 + row) 0) vx 8
      (fun c => (pixVal d0 ((vy + row) % 32) c).getD 0)

theorem rowMaskBit_succ (s vx j c : Nat) :
    rowMaskBit s vx (j + 1) c =
      (rowMaskBit s vx j c || decide (s &&& (128 >>> j) ≠ 0 ∧ c = (vx + j) % 64)) := by
  unfold rowMaskBit
  rw [List.range_succ, List.any_append]
  simp

theorem rowCollB_succ (s vx j : Nat) (pv : Nat → Nat) :
    rowCollB s vx (j + 1) pv =
      (rowCollB s vx j pv || decide (s &&& (128 >>> j) ≠ 0 ∧ pv ((vx + j) % 64) ≠ 0)) := by
  unfold rowCollB
  rw [List.range_succ, List.any_append]
  simp

theorem maskBitUpTo_succ (mem : List Nat) (I0 vx vy k r c : Nat) :
    maskBitUpTo mem I0 vx vy (k + 1) r c =
      (maskBitUpTo mem I0 vx vy k r c ||
        (decide (r = (vy + k) % 32) && rowMaskBit (mem.getD (I0 + k) 0) vx 8 c)) := by
  unfold maskBitUpTo
  rw [List.range_succ, List.any_append]
  simp

theorem collUpTo_succ (mem : List Nat) (I0 vx vy : Nat) (d0 : List (List Nat)) (k : Nat) :
    collUpTo mem I0 vx vy d0 (k + 1) =
      (collUpTo mem I0 vx vy d0 k ||
        rowCollB (mem.getD (I0 + k) 0) vx 8
          (fun c => (pixVal d0 ((vy + k) % 32) c).getD 0)) := by
  unfold collUpTo
  rw [List.range_succ, List.any_append]
  simp

theorem rowMaskBit_iff (s vx j c : Nat) :
    rowMaskBit s vx j c = true ↔
      ∃ col, col < j ∧ s &&& (128 >>> col) ≠ 0 ∧ c = (vx + col) % 64 := by
  unfold rowMaskBit
  simp [List.any_eq_true, List.mem_range]

theorem rowCollB_iff (s vx j : Nat) (pv : Nat → Nat) :
    rowCollB s vx j pv = true ↔
      ∃ col, col < j ∧ s &&& (128 >>> col) ≠ 0 ∧ pv ((vx + col) % 64) ≠ 0 := by
  unfold rowCollB
  simp [List.any_eq_true, List.mem_range]

theorem maskBitUpTo_iff (mem : List Nat) (I0 vx vy k r c : Nat) :
    maskBitUpTo mem I0 vx vy k r c = true ↔
      ∃ row, row < k ∧ r = (vy + row) % 32 ∧
        rowMaskBit (mem.getD (I0 + row) 0) vx 8 c = true := by
  unfold maskBitUpTo
  simp [List.any_eq_true, List.mem_range]

theorem collUpTo_iff (mem : List Nat) (I0 vx vy : Nat) (d0 : List (List Nat)) (k : Nat) :
    collUpTo mem I0 vx vy d0 k = true ↔
      ∃ row, row < k ∧
        rowCollB (mem.getD (I0 + row) 0) vx 8
          (fun c => (pixVal d0 ((vy + row) % 32) c).getD 0) = true := by
  unfold collUpTo
  simp [List.any_eq_true, List.mem_range]

theorem pixVal_isSome (d : List (List Nat)) (hlen : d.length = 32)
    (hrows : ∀ r ∈ d, r.length = 64) {r c : Nat} (hr : r < 32) (hc : c < 64) :
    ∃ v, pixVal d r c = some v := by
  have hr' : r < d.length := by omega
  have h1 : d[r]? = some d[r] := List.getElem?_eq_getElem hr'
  have h2 : d[r].length = 64 := hrows d[r] (d.getElem_mem hr')
  have hc2 : c < d[r].length := by omega
  refine ⟨d[r].get ⟨c, hc2⟩, ?_⟩
  rw [pixVal, h1]
  exact List.getElem?_eq_getElem hc2

theorem some_bind_eq {α β : Type} (a : α) (f : α → Option β) :
    (some a : Option α) >>= f = f a := rfl

theorem drawPixel_spec (x y : Nat) (hx15 : x ≠ 15) (hy15 : y ≠ 15)
    (V0 : List Nat) (hV0 : V0.length = 16) (vx vy f : Nat)
    (hvx : V0[x]? = some vx) (hvy : V0[y]? = some vy)
    (t : Chip8CPU) (hV : t.V = V0.set 15 f)
    (row col : Nat) (p : Nat)
    (hlen : t.display.length = 32) (hrows : ∀ r ∈ t.display, r.length = 64)
    (hp : pixVal t.display ((vy + row) % 32) ((vx + col) % 64) = some p) :
    ∃ t', drawPixel t x y row col = some t' ∧
      t'.V = V0.set 15 (if p ≠ 0 then 1 else f) ∧
      t'.memory = t.memory ∧ t'.I = t.I ∧
      t'.display.length = 32 ∧ (∀ r ∈ t'.display, r.length = 64) ∧
      (∀ r, r < 32 → ∀ c, c < 64 → pixVal t'.display r c =
        if r = (vy + row) % 32 ∧ c = (vx + col) % 64 then some (p ^^^ 1)
        else pixVal t.display r c) := by
  have e1 : pyGet t.V ((x : Nat) : Int) = some vx := by
    rw [pyGet_coe, hV, List.getElem?_set_ne (Ne.symm hx15), hvx]
  have e2 : pyGet t.V ((y : Nat) : Int) = some vy := by
    rw [pyGet_coe, hV, List.getElem?_set_ne (Ne.symm hy15), hvy]
  rw [pixVal, Option.bind_eq_some] at hp
  obtain ⟨rl, hrl, hrlpx⟩ := hp
  have hrl64 : rl.length = 64 := hrows rl (List.getElem?_mem hrl)
  have e3 : pyGet t.display (((vy + row) % 32 : Nat) : Int) = some rl := by
    rw [pyGet_coe]
    exact hrl
  have e4 : pyGet rl (((vx + col) % 64 : Nat) : Int) = some p := by
    rw [pyGet_coe]
    exact hrlpx
  have e5 : pySet rl (((vx + col) % 64 : Nat) : Int) (p ^^^ 1) =
      some (rl.set ((vx + col) % 64) (p ^^^ 1)) :=
    pySet_coe_lt _ _ _ (by omega)
  have hpix : ∀ (u : Chip8CPU), u.display = t.display →
      pySet u.display (((vy + row) % 32 : Nat) : Int) (rl.set ((vx + col) % 64) (p ^^^ 1)) =
      some (t.display.set ((vy + row) % 32) (rl.set ((vx + col) % 64) (p ^^^ 1))) := by
    intro u hu
    rw [hu]
    exact pySet_coe_lt _ _ _ (by omega)
  have hdims : ∀ d2, d2 = t.display.set ((vy + row) % 32) (rl.set ((vx + col) % 64) (p ^^^ 1)) →
      d2.length = 32 ∧ (∀ r ∈ d2, r.length = 64) ∧
      (∀ r, r < 32 → ∀ c, c < 64 → pixVal d2 r c =
        if r = (vy + row) % 32 ∧ c = (vx + col) % 64 then some (p ^^^ 1)
        else pixVal t.display r c) := by
    intro d2 hd2
    subst hd2
    refine ⟨by rw [List.length_set, hlen], ?_, ?_⟩
    · intro r hr
      rcases List.mem_or_eq_of_mem_set hr with h | h
      · exact hrows r h
      · rw [h, List.length_set, hrl64]
    · intro r hr c hc
      by_cases hrpy : r = (vy + row) % 32
      · subst hrpy
        rw [pixVal, List.getElem?_set_self (by omega), Option.some_bind]
        by_cases hcpx : c = (vx + col) % 64
        · subst hcpx
          rw [List.getElem?_set_self (by omega), if_pos ⟨rfl, rfl⟩]
        · rw [List.getElem?_set_ne (fun h => hcpx h.symm), if_neg (by tauto), pixVal, hrl,
            Option.some_bind]
      · rw [pixVal, List.getElem?_set_ne (fun h => hrpy h.symm), if_neg (by tauto), pixVal]
  by_cases hpz : p ≠ 0
  · have e6 : pySet t.V ((15 : Nat) : Int) 1 = some (V0.set 15 1) := by
      rw [hV, pySet_coe_lt _ _ _ (by rw [List.length_set, hV0]; omega), List.set_set]
    refine ⟨{ t with
              V := V0.set 15 1,
              display := t.display.set ((vy + row) % 32)
                (rl.set ((vx + col) % 64) (p ^^^ 1)) },
      ?_, by rw [if_pos hpz], rfl, rfl, ?_, ?_, ?_⟩
    · unfold drawPixel
      simp only [e1, e2, e3, e4, e5, e6, some_bind_eq, Option.some_bind, if_pos hpz,
        hpix { t with V := V0.set 15 1 } rfl]
    · exact (hdims _ rfl).1
    · exact (hdims _ rfl).2.1
    · exact (hdims _ rfl).2.2
  · refine ⟨{ t with
              display := t.display.set ((vy + row) % 32)
                (rl.set ((vx + col) % 64) (p ^^^ 1)) },
      ?_, by rw [if_neg hpz, hV], rfl, rfl, ?_, ?_, ?_⟩
    · unfold drawPixel
      simp only [e1, e2, e3, e4, e5, some_bind_eq, Option.some_bind, if_neg hpz,
        hpix t rfl]
    · exact (hdims _ rfl).1
    · exact (hdims _ rfl).2.1
    · exact (hdims _ rfl).2.2

theorem drawPixel_PC {s s' : Chip8CPU} {x y row col : Nat}
    (he : drawPixel s x y row col = some s') : s'.PC = s.PC := by
  unfold drawPixel at he
  simp only [Option.bind_eq_some, bind_eq_some_iff] at he
  obtain ⟨vx, hvx, vy, hvy, rl, hrl, pix, hpix, cpu1, hcpu1, nr, hnr, disp, hdisp, he⟩ := he
  injection he with he
  subst he
  split at hcpu1
  · rw [Option.bind_eq_some] at hcpu1
    obtain ⟨v, hv, hcpu1⟩ := hcpu1
    injection hcpu1 with h
    subst h
    rfl
  · injection hcpu1 with h
    subst h
    rfl

theorem rowMaskBit_self_false (s vx j : Nat) (hj : j < 64) :
    rowMaskBit s vx j ((vx + j) % 64) = false := by
  rw [Bool.eq_false_iff]
  intro h
  obtain ⟨col, hcol, -, hc⟩ := (rowMaskBit_iff _ _ _ _).mp h
  omega

theorem maskBitUpTo_self_false (mem : List Nat) (I0 vx vy k c : Nat) (hk : k < 32) :
    maskBitUpTo mem I0 vx vy k ((vy + k) % 32) c = false := by
  rw [Bool.eq_false_iff]
  intro h
  obtain ⟨row, hrow, hr, -⟩ := (maskBitUpTo_iff _ _ _ _ _ _ _).mp h
  omega

theorem rowCollB_congr (s vx j : Nat) (pv1 pv2 : Nat → Nat)
    (h : ∀ c, c < 64 → pv1 c = pv2 c) : rowCollB s vx j pv1 = rowCollB s vx j pv2 := by
  cases h1 : rowCollB s vx j pv1 <;> cases h2 : rowCollB s vx j pv2
  · rfl
  · exfalso
    obtain ⟨col, hcol, hb, hnz⟩ := (rowCollB_iff _ _ _ _).mp h2
    have h3 := (rowCollB_iff s vx j pv1).mpr
      ⟨col, hcol, hb, by rw [h _ (Nat.mod_lt _ (by omega))]; exact hnz⟩
    rw [h1] at h3
    exact Bool.false_ne_true h3
  · exfalso
    obtain ⟨col, hcol, hb, hnz⟩ := (rowCollB_iff _ _ _ _).mp h1
    have h3 := (rowCollB_iff s vx j pv2).mpr
      ⟨col, hcol, hb, by rw [← h _ (Nat.mod_lt _ (by omega))]; exact hnz⟩
    rw [h2] at h3
    exact Bool.false_ne_true h3
  · rfl

theorem drawCols_spec (x y : Nat) (hx15 : x ≠ 15) (hy15 : y ≠ 15)
    (V0 : List Nat) (hV0 : V0.length = 16) (vx vy f0 : Nat)
    (hvx : V0[x]? = some vx) (hvy : V0[y]? = some vy)
    (row s : Nat) (t0 : Chip8CPU) (hV : t0.V = V0.set 15 f0)
    (hlen : t0.display.length = 32) (hrows : ∀ r ∈ t0.display, r.length = 64) :
    ∀ j, j ≤ 8 → ∃ t', List.foldlM (drawStep x y row s) t0 (List.range j) = some t' ∧
      t'.V = V0.set 15
        (if rowCollB s vx j (fun c => (pixVal t0.display ((vy + row) % 32) c).getD 0) = true
         then 1 else f0) ∧
      t'.memory = t0.memory ∧ t'.I = t0.I ∧ t'.PC = t0.PC ∧
      t'.display.length = 32 ∧ (∀ r ∈ t'.display, r.length = 64) ∧
      (∀ r c, r < 32 → c < 64 → pixVal t'.display r c =
        if r = (vy + row) % 32 ∧ rowMaskBit s vx j c = true
        then (pixVal t0.display r c).map (fun v => v ^^^ 1)
        else pixVal t0.display r c) := by
  intro j
  induction j with
  | zero =>
    intro _
    refine ⟨t0, rfl, ?_, rfl, rfl, rfl, hlen, hrows, ?_⟩
    · have h0 : rowCollB s vx 0
          (fun c => (pixVal t0.display ((vy + row) % 32) c).getD 0) = false := rfl
      rw [h0, if_neg (by decide), hV]
    · intro r c _ _
      have h0 : rowMaskBit s vx 0 c = false := rfl
      rw [h0, if_neg (fun h => by simpa using h.2)]
  | succ j ih =>
    intro hj8
    obtain ⟨t1, hfold, hV1, hmem1, hI1, hPC1, hlen1, hrows1, hdisp1⟩ := ih (by omega)
    have hpy32 : (vy + row) % 32 < 32 := Nat.mod_lt _ (by omega)
    have hcx64 : (vx + j) % 64 < 64 := Nat.mod_lt _ (by omega)
    obtain ⟨p, hp0⟩ := pixVal_isSome t0.display hlen hrows hpy32 hcx64
    have hmask_self : rowMaskBit s vx j ((vx + j) % 64) = false :=
      rowMaskBit_self_false s vx j (by omega)
    by_cases hbit : s &&& (128 >>> j) ≠ 0
    · have hp1 : pixVal t1.display ((vy + row) % 32) ((vx + j) % 64) = some p := by
        rw [hdisp1 _ _ hpy32 hcx64, if_neg (fun h => by rw [hmask_self] at h; exact absurd h.2 (by decide))]
        exact hp0
      obtain ⟨t2, hdp, hV2, hmem2, hI2, hlen2, hrows2, hdisp2⟩ :=
        drawPixel_spec x y hx15 hy15 V0 hV0 vx vy
          (if rowCollB s vx j
              (fun c => (pixVal t0.display ((vy + row) % 32) c).getD 0) = true
           then 1 else f0)
          hvx hvy t1 hV1 row j p hlen1 hrows1 hp1
      have hPC2 : t2.PC = t1.PC := drawPixel_PC hdp
      have hcoll : rowCollB s vx (j + 1)
          (fun c => (pixVal t0.display ((vy + row) % 32) c).getD 0) =
          (rowCollB s vx j
            (fun c => (pixVal t0.display ((vy + row) % 32) c).getD 0) || decide (p ≠ 0)) := by
        rw [rowCollB_succ]
        simp [hbit, hp0]
      refine ⟨t2, ?_, ?_, hmem2.trans hmem1, hI2.trans hI1, hPC2.trans hPC1,
        hlen2, hrows2, ?_⟩
      · simp only [List.range_succ, List.foldlM_append, hfold, some_bind_eq,
          List.foldlM_cons, List.foldlM_nil, bind_pure]
        rw [drawStep, if_pos hbit]
        exact hdp
      · rw [hV2, hcoll]
        by_cases hp : p = 0
        · simp [hp]
        · simp [hp]
      · intro r c hr hc
        have hmaskc : rowMaskBit s vx (j + 1) c =
            (rowMaskBit s vx j c || decide (c = (vx + j) % 64)) := by
          rw [rowMaskBit_succ]
          simp [hbit]
        rw [hdisp2 r hr c hc]
        by_cases hrc : r = (vy + row) % 32 ∧ c = (vx + j) % 64
        · rw [if_pos hrc, if_pos ⟨hrc.1, by rw [hmaskc, hrc.2, rowMaskBit_self_false s vx j (by omega)]; simp⟩,
            hrc.1, hrc.2, hp0]
          rfl
        · rw [if_neg hrc, hdisp1 r c hr hc, hmaskc]
          by_cases hrpy : r = (vy + row) % 32
          · have hccx : c ≠ (vx + j) % 64 := fun h => hrc ⟨hrpy, h⟩
            simp [hccx]
          · simp [hrpy]
    · refine ⟨t1, ?_, ?_, hmem1, hI1, hPC1, hlen1, hrows1, ?_⟩
      · simp only [List.range_succ, List.foldlM_append, hfold, some_bind_eq,
          List.foldlM_cons, List.foldlM_nil, bind_pure]
        rw [drawStep, if_neg hbit]
      · rw [hV1]
        have hcoll : rowCollB s vx (j + 1)
            (fun c => (pixVal t0.display ((vy + row) % 32) c).getD 0) =
            rowCollB s vx j
              (fun c => (pixVal t0.display ((vy + row) % 32) c).getD 0) := by
          rw [rowCollB_succ]
          simp [hbit]
        rw [hcoll]
      · intro r c hr hc
        have hmaskc : rowMaskBit s vx (j + 1) c = rowMaskBit s vx j c := by
          rw [rowMaskBit_succ]
          simp [hbit]
        rw [hdisp1 r c hr hc, hmaskc]

theorem collFlag_or (A B : Bool) :
    (if B = true then (1 : Nat) else if A = true then 1 else 0) =
      (if (A || B) = true then 1 else 0) := by
  cases A <;> cases B <;> rfl

theorem drawRows_spec (x y : Nat) (hx15 : x ≠ 15) (hy15 : y ≠ 15)
    (V0 : List Nat) (hV0 : V0.length = 16) (vx vy : Nat)
    (hvx : V0[x]? = some vx) (hvy : V0[y]? = some vy)
    (n : Nat) (hn : n ≤ 15)
    (t0 : Chip8CPU) (hV : t0.V = V0.set 15 0)
    (hlen : t0.display.length = 32) (hrows : ∀ r ∈ t0.display, r.length = 64)
    (hmem : t0.I + n ≤ t0.memory.length) :
    ∀ k, k ≤ n → ∃ t', List.foldlM (drawRowStep x y) t0 (List.range k) = some t' ∧
      t'.V = V0.set 15 (if collUpTo t0.memory t0.I vx vy t0.display k = true then 1 else 0) ∧
      t'.memory = t0.memory ∧ t'.I = t0.I ∧ t'.PC = t0.PC ∧
      t'.display.length = 32 ∧ (∀ r ∈ t'.display, r.length = 64) ∧
      (∀ r c, r < 32 → c < 64 → pixVal t'.display r c =
        if maskBitUpTo t0.memory t0.I vx vy k r c = true
        then (pixVal t0.display r c).map (fun v => v ^^^ 1)
        else pixVal t0.display r c) := by
  intro k
  induction k with
  | zero =>
    intro _
    refine ⟨t0, rfl, ?_, rfl, rfl, rfl, hlen, hrows, ?_⟩
    · have h0 : collUpTo t0.memory t0.I vx vy t0.display 0 = false := rfl
      rw [h0, if_neg (by decide), hV]
    · intro r c _ _
      have h0 : maskBitUpTo t0.memory t0.I vx vy 0 r c = false := rfl
      rw [h0, if_neg (by decide)]
  | succ k ih =>
    intro hk
    obtain ⟨t1, hfold, hV1, hmem1, hI1, hPC1, hlen1, hrows1, hdisp1⟩ := ih (by omega)
    have hidx : t0.I + k < t0.memory.length := by omega
    have hsprite : pyGet t1.memory ((t1.I + k : Nat) : Int) =
        some (t0.memory.getD (t0.I + k) 0) := by
      rw [hmem1, hI1, pyGet_coe, List.getElem?_eq_getElem hidx]
      rw [List.getD_eq_getElem?_getD, List.getElem?_eq_getElem hidx]
      rfl
    obtain ⟨t2, fold8, hV2, hmem2, hI2, hPC2, hlen2, hrows2, hdisp2⟩ :=
      drawCols_spec x y hx15 hy15 V0 hV0 vx vy
        (if collUpTo t0.memory t0.I vx vy t0.display k = true then 1 else 0)
        hvx hvy k (t0.memory.getD (t0.I + k) 0) t1 hV1 hlen1 hrows1 8 (le_refl 8)
    have hstep : drawRowStep x y t1 k = some t2 := by
      unfold drawRowStep
      rw [hsprite, some_bind_eq]
      exact fold8
    have hpv : ∀ c, c < 64 →
        (pixVal t1.display ((vy + k) % 32) c).getD 0 =
        (pixVal t0.display ((vy + k) % 32) c).getD 0 := by
      intro c hc
      have hms := maskBitUpTo_self_false t0.memory t0.I vx vy k c (by omega)
      rw [hdisp1 _ c (Nat.mod_lt _ (by omega)) hc, hms, if_neg (by decide)]
    have hcollB : rowCollB (t0.memory.getD (t0.I + k) 0) vx 8
        (fun c => (pixVal t1.display ((vy + k) % 32) c).getD 0) =
        rowCollB (t0.memory.getD (t0.I + k) 0) vx 8
          (fun c => (pixVal t0.display ((vy + k) % 32) c).getD 0) :=
      rowCollB_congr _ _ _ _ _ hpv
    refine ⟨t2, ?_, ?_, hmem2.trans hmem1, hI2.trans hI1, hPC2.trans hPC1,
      hlen2, hrows2, ?_⟩
    · simp only [List.range_succ, List.foldlM_append, hfold, some_bind_eq,
        List.foldlM_cons, List.foldlM_nil, bind_pure]
      exact hstep
    · rw [hV2, hcollB, collUpTo_succ, collFlag_or]
    · intro r c hr hc
      by_cases hrpy : r = (vy + k) % 32
      · subst hrpy
        have hms := maskBitUpTo_self_false t0.memory t0.I vx vy k c (by omega)
        rw [hdisp2 _ c hr hc, hdisp1 _ c hr hc, maskBitUpTo_succ, hms]
        simp
      · rw [hdisp2 r c hr hc, if_neg (fun h => hrpy h.1), hdisp1 r c hr hc,
          maskBitUpTo_succ]
        simp [hrpy]

theorem display_ext (d1 d2 : List (List Nat)) (h1 : d1.length = 32) (h2 : d2.length = 32)
    (hr1 : ∀ r ∈ d1, r.length = 64) (hr2 : ∀ r ∈ d2, r.length = 64)
    (h : ∀ r c, r < 32 → c < 64 → pixVal d1 r c = pixVal d2 r c) : d1 = d2 := by
  apply List.ext_getElem (by omega)
  intro i hi1 hi2
  apply List.ext_getElem
    (by rw [hr1 _ (List.getElem_mem hi1), hr2 _ (List.getElem_mem hi2)])
  intro j hj1 hj2
  have hx := h i j (by omega) (by rw [← hr1 d1[i] (List.getElem_mem hi1)]; exact hj1)
  rw [pixVal, pixVal, List.getElem?_eq_getElem hi1, List.getElem?_eq_getElem hi2,
    Option.some_bind, Option.some_bind, List.getElem?_eq_getElem hj1,
    List.getElem?_eq_getElem hj2] at hx
  exact Option.some.inj hx

theorem pixVal_mem {d : List (List Nat)} {r c p : Nat} (h : pixVal d r c = some p) :
    ∃ rl ∈ d, p ∈ rl := by
  rw [pixVal, Option.bind_eq_some] at h
  obtain ⟨rl, h1, h2⟩ := h
  exact ⟨rl, List.getElem?_mem h1, List.getElem?_mem h2⟩

theorem map_xor1_xor1 (o : Option Nat) :
    (o.map (fun v => v ^^^ 1)).map (fun v => v ^^^ 1) = o := by
  cases o with
  | none => rfl
  | some v => simp [Nat.xor_assoc]

set_option maxHeartbeats 1000000 in
/-- Claim C4 (amended): for the draw-sprite instruction DXYN with neither
coordinate register being VF, the flag register is reset before the blit and
ends as 1 iff at least one framebuffer pixel transitions from on to off
during the blit, and executing the same draw-sprite instruction twice in
succession restores the original framebuffer contents (XOR round-trip law),
with coordinates wrapped modulo 64 horizontally and modulo 32 vertically.
When a coordinate register IS VF the law fails, because the mid-blit
collision write to VF shifts the coordinates of the remaining pixels (the
source re-reads `self.V[x]` and `self.V[y]` for every pixel). -/
theorem draw_spec (cpu : Chip8CPU) (opcode rnd rnd2 : Nat)
    (hop : opcode >>> 12 = 0xD)
    (hx15 : (opcode >>> 8) &&& 0xF ≠ 15) (hy15 : (opcode >>> 4) &&& 0xF ≠ 15)
    (hV : cpu.V.length = 16)
    (hlen : cpu.display.length = 32) (hrows : ∀ r ∈ cpu.display, r.length = 64)
    (h01 : ∀ r ∈ cpu.display, ∀ v ∈ r, v ≤ 1)
    (hmem : cpu.I + (opcode &&& 0xF) ≤ cpu.memory.length) :
    ∃ cpu', execute cpu opcode rnd = some cpu' ∧
      (∃ flag, cpu'.V[15]? = some flag ∧ (flag = 0 ∨ flag = 1) ∧
        (flag = 1 ↔ ∃ r c, r < 32 ∧ c < 64 ∧
          pixVal cpu.display r c = some 1 ∧ pixVal cpu'.display r c = some 0)) ∧
      (∃ cpu'', execute cpu' opcode rnd2 = some cpu'' ∧ cpu''.display = cpu.display) := by
  have hxlt : (opcode >>> 8) &&& 0xF < 16 := by
    have h := (Nat.and_le_right : (opcode >>> 8) &&& 0xF ≤ 0xF)
    omega
  have hylt : (opcode >>> 4) &&& 0xF < 16 := by
    have h := (Nat.and_le_right : (opcode >>> 4) &&& 0xF ≤ 0xF)
    omega
  have hnle : opcode &&& 0xF ≤ 15 := Nat.and_le_right
  obtain ⟨vx, hvx⟩ : ∃ v, cpu.V[(opcode >>> 8) &&& 0xF]? = some v :=
    ⟨_, List.getElem?_eq_getElem (by omega)⟩
  obtain ⟨vy, hvy⟩ : ∃ v, cpu.V[(opcode >>> 4) &&& 0xF]? = some v :=
    ⟨_, List.getElem?_eq_getElem (by omega)⟩
  have hset : pySet cpu.V ((15 : Nat) : Int) 0 = some (cpu.V.set 15 0) :=
    pySet_eq_of_nonneg _ _ _ (by omega) (by simp [hV])
  obtain ⟨t1, hfold1, hV1, hmem1, hI1, hPC1, hlen1, hrows1, hdisp1⟩ :=
    drawRows_spec ((opcode >>> 8) &&& 0xF) ((opcode >>> 4) &&& 0xF) hx15 hy15
      cpu.V hV vx vy hvx hvy (opcode &&& 0xF) hnle
      { cpu with V := cpu.V.set 15 0 } rfl hlen hrows hmem
      (opcode &&& 0xF) (le_refl _)
  have hV1' : t1.V = cpu.V.set 15
      (if collUpTo cpu.memory cpu.I vx vy cpu.display (opcode &&& 0xF) = true
       then 1 else 0) := hV1
  have hmem1' : t1.memory = cpu.memory := hmem1
  have hI1' : t1.I = cpu.I := hI1
  have hdisp1' : ∀ r c, r < 32 → c < 64 → pixVal t1.display r c =
      if maskBitUpTo cpu.memory cpu.I vx vy (opcode &&& 0xF) r c = true
      then (pixVal cpu.display r c).map (fun v => v ^^^ 1)
      else pixVal cpu.display r c := hdisp1
  refine ⟨{ t1 with draw_flag := true, PC := t1.PC + 2 }, ?_, ?_, ?_⟩
  · simp only [execute_dispatchD cpu opcode rnd hop, hset, Option.some_bind, hfold1]
  · refine ⟨if collUpTo cpu.memory cpu.I vx vy cpu.display (opcode &&& 0xF) = true
        then 1 else 0, ?_, ?_, ?_⟩
    · show t1.V[15]? = some _
      rw [hV1', List.getElem?_set_self (by omega)]
    · by_cases hcoll : collUpTo cpu.memory cpu.I vx vy cpu.display (opcode &&& 0xF) = true
      · exact Or.inr (if_pos hcoll)
      · exact Or.inl (if_neg hcoll)
    · constructor
      · intro hflag1
        by_cases hcoll : collUpTo cpu.memory cpu.I vx vy cpu.display (opcode &&& 0xF) = true
        · obtain ⟨row, hrown, hrowC⟩ := (collUpTo_iff _ _ _ _ _ _).mp hcoll
          obtain ⟨col, hcol8, hbit, hnz⟩ := (rowCollB_iff _ _ _ _).mp hrowC
          have hnz2 : (pixVal cpu.display ((vy + row) % 32) ((vx + col) % 64)).getD 0 ≠ 0 :=
            hnz
          obtain ⟨p, hp⟩ := pixVal_isSome cpu.display hlen hrows
            (Nat.mod_lt _ (by omega)) (Nat.mod_lt _ (by omega))
          have hpnz : p ≠ 0 := by
            rw [hp] at hnz2
            simpa using hnz2
          have hple : p ≤ 1 := by
            obtain ⟨rl, hrl, hprl⟩ := pixVal_mem hp
            exact h01 rl hrl p hprl
          have hp1 : p = 1 := by omega
          have hmask : maskBitUpTo cpu.memory cpu.I vx vy (opcode &&& 0xF)
              ((vy + row) % 32) ((vx + col) % 64) = true :=
            (maskBitUpTo_iff _ _ _ _ _ _ _).mpr ⟨row, hrown, rfl,
              (rowMaskBit_iff _ _ _ _).mpr ⟨col, hcol8, hbit, rfl⟩⟩
          have hnew : pixVal t1.display ((vy + row) % 32) ((vx + col) % 64) = some 0 := by
            rw [hdisp1' _ _ (Nat.mod_lt _ (by omega)) (Nat.mod_lt _ (by omega)),
              if_pos hmask, hp, hp1]
            decide
          refine ⟨(vy + row) % 32, (vx + col) % 64, Nat.mod_lt _ (by omega),
            Nat.mod_lt _ (by omega), ?_, hnew⟩
          rw [hp1] at hp
          exact hp
        · rw [if_neg hcoll] at hflag1
          exact absurd hflag1 (by decide)
      · rintro ⟨r, c, hr, hc, hold, hnew⟩
        by_cases hmask : maskBitUpTo cpu.memory cpu.I vx vy (opcode &&& 0xF) r c = true
        · obtain ⟨row, hrown, hrpy, hrm⟩ := (maskBitUpTo_iff _ _ _ _ _ _ _).mp hmask
          obtain ⟨col, hcol8, hbit, hccx⟩ := (rowMaskBit_iff _ _ _ _).mp hrm
          have hcoll : collUpTo cpu.memory cpu.I vx vy cpu.display (opcode &&& 0xF) = true :=
            (collUpTo_iff _ _ _ _ _ _).mpr ⟨row, hrown,
              (rowCollB_iff _ _ _ _).mpr ⟨col, hcol8, hbit, by
                show (pixVal cpu.display ((vy + row) % 32) ((vx + col) % 64)).getD 0 ≠ 0
                rw [← hrpy, ← hccx, hold]
                decide⟩⟩
          rw [if_pos hcoll]
        · exfalso
          have hsame := hdisp1' r c hr hc
          rw [if_neg hmask] at hsame
          have hnew2 : pixVal t1.display r c = some 0 := hnew
          rw [hnew2, hold] at hsame
          exact absurd hsame (by decide)
  · have hset2 : pySet t1.V ((15 : Nat) : Int) 0 = some (cpu.V.set 15 0) := by
      rw [hV1', pySet_eq_of_nonneg _ _ _ (by omega) (by simp [hV])]
      simp [List.set_set]
    obtain ⟨t2, hfold2, hV2, hmem2, hI2, hPC2, hlen2, hrows2, hdisp2⟩ :=
      drawRows_spec ((opcode >>> 8) &&& 0xF) ((opcode >>> 4) &&& 0xF) hx15 hy15
        cpu.V hV vx vy hvx hvy (opcode &&& 0xF) hnle
        { { t1 with draw_flag := true, PC := t1.PC + 2 } with V := cpu.V.set 15 0 }
        rfl hlen1 hrows1
        (by show t1.I + _ ≤ t1.memory.length; rw [hI1', hmem1']; exact hmem)
        (opcode &&& 0xF) (le_refl _)
    refine ⟨{ t2 with draw_flag := true, PC := t2.PC + 2 }, ?_, ?_⟩
    · simp only [execute_dispatchD _ opcode rnd2 hop, hset2, Option.some_bind, hfold2]
    · show t2.display = cpu.display
      apply display_ext t2.display cpu.display hlen2 hlen hrows2 hrows
      intro r c hr hc
      have h2 := hdisp2 r c hr hc
      have h2a : pixVal t2.display r c =
          if maskBitUpTo t1.memory t1.I vx vy (opcode &&& 0xF) r c = true
          then (pixVal t1.display r c).map (fun v => v ^^^ 1)
          else pixVal t1.display r c := h2
      rw [hmem1', hI1'] at h2a
      rw [h2a, hdisp1' r c hr hc]
      by_cases hmask : maskBitUpTo cpu.memory cpu.I vx vy (opcode &&& 0xF) r c = true
      · rw [if_pos hmask, if_pos hmask, map_xor1_xor1]
      · rw [if_neg hmask, if_neg hmask]

set_option maxHeartbeats 1600000 in
/-- Claim C4, counterexample to the unrestricted claim: with VF itself as a
coordinate register the XOR round-trip law fails.  Opcode 0xDF01 (x = 0xF,
y = 0, n = 1) draws the fontset byte 0xF0 at the origin.  From the reset
state, the first draw lights pixels (0,0)..(0,3).  During the second draw
the collision at pixel (0,0) writes VF = 1, and since the source re-reads
`self.V[x]` for every pixel, the remaining three pixels land one column to
the right: pixel (0,1) ends lit (the display is NOT restored), instead of
the round trip restoring the all-zero framebuffer. -/
theorem draw_counterexample :
    pixVal resetState.display 0 1 = some 0 ∧
    ((execute resetState 0xDF01 0).bind fun c => execute c 0xDF01 0).map
      (fun c => pixVal c.display 0 1) = some (some 1) := by
  have hm0 : resetState.memory[0]? = some 240 := by
    show (writeBytes (List.replicate 4096 0) 0 FONTSET)[0]? = some 240
    rw [writeBytes_getElem?_in _ _ _ _ (by omega) (by decide)
      (by rw [List.length_replicate]; decide)]
    decide
  have p00 : ∀ t : Chip8CPU, t.V = List.replicate 16 0 →
      t.display = List.replicate 32 (List.replicate 64 0) →
      drawPixel t 15 0 0 0 = some { t with
        display := (List.replicate 32 (List.replicate 64 0)).set 0
          ((List.replicate 64 0).set 0 1) } := by
    intro t hV hD
    simp [drawPixel, hV, hD, pyGet_eq_of_nonneg, pySet_eq_of_nonneg,
      List.getElem?_set_self, List.getElem?_set, List.getElem?_replicate,
      -List.reduceReplicate]
  have p01 : ∀ t : Chip8CPU, t.V = List.replicate 16 0 →
      t.display = (List.replicate 32 (List.replicate 64 0)).set 0
        ((List.replicate 64 0).set 0 1) →
      drawPixel t 15 0 0 1 = some { t with
        display := (List.replicate 32 (List.replicate 64 0)).set 0
          (((List.replicate 64 0).set 0 1).set 1 1) } := by
    intro t hV hD
    simp [drawPixel, hV, hD, pyGet_eq_of_nonneg, pySet_eq_of_nonneg,
      List.getElem?_set_self, List.getElem?_set, List.getElem?_replicate,
      -List.reduceReplicate]
  have p02 : ∀ t : Chip8CPU, t.V = List.replicate 16 0 →
      t.display = (List.replicate 32 (List.replicate 64 0)).set 0
        (((List.replicate 64 0).set 0 1).set 1 1) →
      drawPixel t 15 0 0 2 = some { t with
        display := (List.replicate 32 (List.replicate 64 0)).set 0
          ((((List.replicate 64 0).set 0 1).set 1 1).set 2 1) } := by
    intro t hV hD
    simp [drawPixel, hV, hD, pyGet_eq_of_nonneg, pySet_eq_of_nonneg,
      List.getElem?_set_self, List.getElem?_set, List.getElem?_replicate,
      -List.reduceReplicate]
  have p03 : ∀ t : Chip8CPU, t.V = List.replicate 16 0 →
      t.display = (List.replicate 32 (List.replicate 64 0)).set 0
        ((((List.replicate 64 0).set 0 1).set 1 1).set 2 1) →
      drawPixel t 15 0 0 3 = some { t with
        display := (List.replicate 32 (List.replicate 64 0)).set 0
          (((((List.replicate 64 0).set 0 1).set 1 1).set 2 1).set 3 1) } := by
    intro t hV hD
    simp [drawPixel, hV, hD, pyGet_eq_of_nonneg, pySet_eq_of_nonneg,
      List.getElem?_set_self, List.getElem?_set, List.getElem?_replicate,
      -List.reduceReplicate]
  have hrowA : ∀ t : Chip8CPU, t.V = List.replicate 16 0 →
      t.display = List.replicate 32 (List.replicate 64 0) →
      t.memory = resetState.memory → t.I = 0 →
      drawRowStep 15 0 t 0 = some { t with
        display := (List.replicate 32 (List.replicate 64 0)).set 0
          (((((List.replicate 64 0).set 0 1).set 1 1).set 2 1).set 3 1) } := by
    intro t hV hD hM hI
    simp [drawRowStep, drawStep, hm0, hV, hD, hM, hI, p00, p01, p02, p03,
      List.foldlM_cons, List.foldlM_nil, -List.reduceReplicate,
      pyGet_eq_of_nonneg,
      (by decide : (240 : Nat) &&& 128 = 128),
      (by decide : (240 : Nat) &&& 64 = 64),
      (by decide : (240 : Nat) &&& 32 = 32),
      (by decide : (240 : Nat) &&& 16 = 16),
      (by decide : (240 : Nat) &&& 8 = 0),
      (by decide : (240 : Nat) &&& 4 = 0),
      (by decide : (240 : Nat) &&& 2 = 0),
      (by decide : (240 : Nat) &&& 1 = 0),
      (by decide : List.range 8 = [0, 1, 2, 3, 4, 5, 6, 7])]
  have hA : execute resetState 0xDF01 0 =
      some { resetState with
             display := (List.replicate 32 (List.replicate 64 0)).set 0
               (((((List.replicate 64 0).set 0 1).set 1 1).set 2 1).set 3 1),
             draw_flag := true,
             PC := 514 } := by
    rw [execute_dispatchD _ _ _ (by decide)]
    simp [hrowA, List.foldlM_cons, List.foldlM_nil, -List.reduceReplicate,
      pyGet_eq_of_nonneg, pySet_eq_of_nonneg,
      (by decide : (57089 : Nat) &&& 15 = 1),
      (by decide : (223 : Nat) &&& 15 = 15),
      (by decide : (3568 : Nat) &&& 15 = 0),
      (by decide : List.range 1 = [0])]
  have q0 : ∀ t : Chip8CPU, t.V = List.replicate 16 0 →
      t.display = (List.replicate 32 (List.replicate 64 0)).set 0
        (((((List.replicate 64 0).set 0 1).set 1 1).set 2 1).set 3 1) →
      drawPixel t 15 0 0 0 = some { t with
        V := (List.replicate 16 0).set 15 1,
        display := (List.replicate 32 (List.replicate 64 0)).set 0
          ((((((List.replicate 64 0).set 0 1).set 1 1).set 2 1).set 3 1).set 0 0) } := by
    intro t hV hD
    simp [drawPixel, hV, hD, pyGet_eq_of_nonneg, pySet_eq_of_nonneg,
      List.getElem?_set_self, List.getElem?_set, List.getElem?_replicate,
      -List.reduceReplicate]
  have q1 : ∀ t : Chip8CPU, t.V = (List.replicate 16 0).set 15 1 →
      t.display = (List.replicate 32 (List.replicate 64 0)).set 0
        ((((((List.replicate 64 0).set 0 1).set 1 1).set 2 1).set 3 1).set 0 0) →
      drawPixel t 15 0 0 1 = some { t with
        V := (List.replicate 16 0).set 15 1,
        display := (List.replicate 32 (List.replicate 64 0)).set 0
          (((((((List.replicate 64 0).set 0 1).set 1 1).set 2 1).set 3 1).set 0 0).set 2 0) } := by
    intro t hV hD
    simp [drawPixel, hV, hD, pyGet_eq_of_nonneg, pySet_eq_of_nonneg,
      List.getElem?_set_self, List.getElem?_set, List.getElem?_replicate,
      -List.reduceReplicate]
  have q2 : ∀ t : Chip8CPU, t.V = (List.replicate 16 0).set 15 1 →
      t.display = (List.replicate 32 (List.replicate 64 0)).set 0
        (((((((List.replicate 64 0).set 0 1).set 1 1).set 2 1).set 3 1).set 0 0).set 2 0) →
      drawPixel t 15 0 0 2 = some { t with
        V := (List.replicate 16 0).set 15 1,
        display := (List.replicate 32 (List.replicate 64 0)).set 0
          ((((((((List.replicate 64 0).set 0 1).set 1 1).set 2 1).set 3 1).set 0 0).set 2 0).set 3 0) } := by
    intro t hV hD
    simp [drawPixel, hV, hD, pyGet_eq_of_nonneg, pySet_eq_of_nonneg,
      List.getElem?_set_self, List.getElem?_set, List.getElem?_replicate,
      -List.reduceReplicate]
  have q3 : ∀ t : Chip8CPU, t.V = (List.replicate 16 0).set 15 1 →
      t.display = (List.replicate 32 (List.replicate 64 0)).set 0
        ((((((((List.replicate 64 0).set 0 1).set 1 1).set 2 1).set 3 1).set 0 0).set 2 0).set 3 0) →
      drawPixel t 15 0 0 3 = some { t with
        display := (List.replicate 32 (List.replicate 64 0)).set 0
          (((((((((List.replicate 64 0).set 0 1).set 1 1).set 2 1).set 3 1).set 0 0).set 2 0).set 3 0).set 4 1) } := by
    intro t hV hD
    simp [drawPixel, hV, hD, pyGet_eq_of_nonneg, pySet_eq_of_nonneg,
      List.getElem?_set_self, List.getElem?_set, List.getElem?_replicate,
      -List.reduceReplicate]
  have hrowB : ∀ t : Chip8CPU, t.V = List.replicate 16 0 →
      t.display = (List.replicate 32 (List.replicate 64 0)).set 0
        (((((List.replicate 64 0).set 0 1).set 1 1).set 2 1).set 3 1) →
      t.memory = resetState.memory → t.I = 0 →
      drawRowStep 15 0 t 0 = some { t with
        V := (List.replicate 16 0).set 15 1,
        display := (List.replicate 32 (List.replicate 64 0)).set 0
          (((((((((List.replicate 64 0).set 0 1).set 1 1).set 2 1).set 3 1).set 0 0).set 2 0).set 3 0).set 4 1) } := by
    intro t hV hD hM hI
    simp [drawRowStep, drawStep, hm0, hV, hD, hM, hI, q0, q1, q2, q3,
      List.foldlM_cons, List.foldlM_nil, -List.reduceReplicate,
      pyGet_eq_of_nonneg,
      (by decide : (240 : Nat) &&& 128 = 128),
      (by decide : (240 : Nat) &&& 64 = 64),
      (by decide : (240 : Nat) &&& 32 = 32),
      (by decide : (240 : Nat) &&& 16 = 16),
      (by decide : (240 : Nat) &&& 8 = 0),
      (by decide : (240 : Nat) &&& 4 = 0),
      (by decide : (240 : Nat) &&& 2 = 0),
      (by decide : (240 : Nat) &&& 1 = 0),
      (by decide : List.range 8 = [0, 1, 2, 3, 4, 5, 6, 7])]
  have hB : execute { resetState with
      display := (List.replicate 32 (List.replicate 64 0)).set 0
        (((((List.replicate 64 0).set 0 1).set 1 1).set 2 1).set 3 1),
      draw_flag := true,
      PC := 514 } 0xDF01 0 =
      some { resetState with
             V := (List.replicate 16 0).set 15 1,
             display := (List.replicate 32 (List.replicate 64 0)).set 0
               (((((((((List.replicate 64 0).set 0 1).set 1 1).set 2 1).set 3 1).set 0 0).set 2 0).set 3 0).set 4 1),
             draw_flag := true,
             PC := 516 } := by
    rw [execute_dispatchD _ _ _ (by decide)]
    simp [hrowB, List.foldlM_cons, List.foldlM_nil, -List.reduceReplicate,
      pyGet_eq_of_nonneg, pySet_eq_of_nonneg,
      (by decide : (57089 : Nat) &&& 15 = 1),
      (by decide : (223 : Nat) &&& 15 = 15),
      (by decide : (3568 : Nat) &&& 15 = 0),
      (by decide : List.range 1 = [0])]
  refine ⟨by simp [pixVal, List.getElem?_replicate, -List.reduceReplicate], ?_⟩
  simp only [hA, Option.some_bind, hB, Option.map_some]
  simp [pixVal, List.getElem?_set_self, List.getElem?_set, List.getElem?_replicate,
    -List.reduceReplicate]

/-- Witness for `draw_spec`: opcode 0xD011 (x = 0, y = 1, n = 1) drawn from
the reset state, both coordinate registers distinct from VF. -/
theorem draw_spec_witness :
    ∃ cpu', execute resetState 0xD011 0 = some cpu' ∧
      (∃ flag, cpu'.V[15]? = some flag ∧ (flag = 0 ∨ flag = 1) ∧
        (flag = 1 ↔ ∃ r c, r < 32 ∧ c < 64 ∧
          pixVal resetState.display r c = some 1 ∧ pixVal cpu'.display r c = some 0)) ∧
      (∃ cpu'', execute cpu' 0xD011 0 = some cpu'' ∧ cpu''.display = resetState.display) :=
  draw_spec resetState 0xD011 0 0 (by decide) (by decide) (by decide) (by decide)
    (by decide) (by decide) (by decide)
    (by rw [resetState_memory_length]; decide)
